import Mathlib

/-!
# AmplifyQuery cache-consistency engine: shallow embedding

This file embeds the cache-consistency core of `src/service.ts` (query-key
scheme, optimistic mutation engine, read-through cache resolver, real-time
merge) into Lean and proves/refutes the frozen claims about it.

Modelling conventions, fixed once for the whole file:

* JavaScript values are modelled by `JSAtom`/`JSLite`/`JSVal` (scalars, arrays
  of scalars, and objects whose fields are scalars or scalar arrays).  Records
  and filter objects are ordered association lists (`JSObj`), matching the
  enumeration order of `Object.entries`/`Object.keys`.  Record `id`s are
  strings, as declared by `BaseModel` (non-string ids are out of scope).
* The TanStack `QueryClient` is modelled by `Cache`: the list of query objects
  currently in the query cache (each with possibly-undefined `data`) plus the
  set of invalidated keys.  `setQueryData` with an `undefined` value is a
  no-op, per TanStack's documented semantics; `setQueryData` with any other
  value updates the existing query or creates a new one.
* JS `Map`s keyed by query-key arrays use reference equality; every key array
  stored into `previousDataMap` in the source is a distinct array object, so
  the map is modelled as an append-only association list iterated in insertion
  order.
* Asynchronous transport calls are modelled by passing the transport's
  response (`Except` for thrown errors, a `{data, errors}` record otherwise)
  as an explicit argument; the event loop interleaving hazards are not part of
  the claims settled here.
* Cache lists are null-free (`Lists never contain null entries after
  normalization`, spec section 3); the source's `filter(item => item !== null)`
  run over already-cached lists is therefore the identity and the occasional
  `item &&` truthiness guard over list elements is trivially true.
-/

deriving instance DecidableEq for Except

/-- A JavaScript scalar: `null`, boolean, number (restricted to integers; the
claims only exercise integral numbers), or string. -/
inductive JSAtom where
  | anull
  | abool (b : Bool)
  | anum (n : Int)
  | astr (s : String)
deriving DecidableEq, Repr

/-- A scalar or an array of scalars: the values allowed inside a nested
object such as a filter clause (`{eq: "open"}`, `{between: [10, 20]}`). -/
inductive JSLite where
  | la (a : JSAtom)
  | larr (xs : List JSAtom)
deriving DecidableEq, Repr

/-- A record-field or filter-entry value: a scalar, an array of scalars, or a
nested object whose fields are `JSLite` values. -/
inductive JSVal where
  | atom (a : JSAtom)
  | arr (xs : List JSAtom)
  | obj (fs : List (String × JSLite))
deriving DecidableEq, Repr

/-- A JavaScript object in enumeration order: records, filter objects and
named-query argument bags. -/
abbrev JSObj := List (String × JSVal)

/-- First binding of a field in an object (JS property lookup; `none` is
JavaScript `undefined`). -/
def objLookup (o : JSObj) (k : String) : Option JSVal :=
  match o with
  | [] => none
  | (k', v) :: rest => if k' = k then some v else objLookup rest k

/-- Whether an object already has a field (the `in` operator / spread
overwrite test). -/
def objHas (o : JSObj) (k : String) : Bool :=
  match o with
  | [] => false
  | (k', _) :: rest => if k' = k then true else objHas rest k

/-- Overwrite the value of an existing field, keeping its position. -/
def objSetExisting (o : JSObj) (k : String) (v : JSVal) : JSObj :=
  match o with
  | [] => []
  | (k', v') :: rest =>
      if k' = k then (k, v) :: rest else (k', v') :: objSetExisting rest k v

/-- JavaScript object spread `{...a, ...b}`: fields of `a` in order, with
values overridden by `b` where present, then the new fields of `b` appended in
their own order. -/
def objMerge (a b : JSObj) : JSObj :=
  b.foldl (fun acc kv => if objHas acc kv.1 then objSetExisting acc kv.1 kv.2
                         else acc ++ [kv]) a

/-- First binding of a field among `JSLite` clause operands. -/
def liteLookup (fs : List (String × JSLite)) (k : String) : Option JSLite :=
  match fs with
  | [] => none
  | (k', v) :: rest => if k' = k then some v else liteLookup rest k

/-- `String(atom)` coercion. -/
def atomToStr : JSAtom → String
  | .anull => "null"
  | .abool true => "true"
  | .abool false => "false"
  | .anum n => toString n
  | .astr s => s

/-- `String(x)` for a field value (`[object Object]` for nested objects,
comma-joined elements for arrays, `undefined` for a missing field). -/
def jsValToStr : Option JSVal → String
  | none => "undefined"
  | some (.atom a) => atomToStr a
  | some (.arr xs) => String.intercalate "," (xs.map atomToStr)
  | some (.obj _) => "[object Object]"

/-- `String(operand)` for a clause operand. -/
def liteToStr : JSLite → String
  | .la a => atomToStr a
  | .larr xs => String.intercalate "," (xs.map atomToStr)

/-- `a.startsWith(b)` over character lists. -/
def charsStartWith : List Char → List Char → Bool
  | _, [] => true
  | [], _ :: _ => false
  | a :: as, b :: bs => a = b && charsStartWith as bs

/-- Substring occurrence over character lists. -/
def charsHaveSub : List Char → List Char → Bool
  | l, pat => charsStartWith l pat ||
      match l with
      | [] => false
      | _ :: rest => charsHaveSub rest pat

/-- `s.includes(pat)` (JavaScript `String.prototype.includes`). -/
def strIncludes (s pat : String) : Bool :=
  charsHaveSub s.toList pat.toList

/-- One token of a TanStack query key.  The keys built by this library hold
strings, except that `JSON.stringify(undefined)` (which is JavaScript
`undefined`) can appear in the key built by `list`'s error handler, and a
non-string relation id would land as an opaque non-string token (`nonstr`;
relation ids are strings for every claim settled here, so `nonstr` tokens are
never compared apart). -/
inductive KeyTok where
  | str (s : String)
  | undef
  | nonstr
deriving DecidableEq, Repr

/-- A TanStack query key: an ordered tuple of tokens. -/
abbrev QKey := List KeyTok

/-- A defined cache entry value: `null`, a single record, or a list of
records. -/
inductive CacheVal where
  | vnull
  | record (r : JSObj)
  | list (xs : List JSObj)
deriving DecidableEq, Repr

/-- JavaScript truthiness of a defined cache value (objects and arrays are
truthy even when empty; `null` is falsy). -/
def CacheVal.truthy : CacheVal → Bool
  | .vnull => false
  | .record _ => true
  | .list _ => true

/-- `Array.isArray(x) ? x : []` over a possibly-undefined cache value. -/
def asItemArray : Option CacheVal → List JSObj
  | some (.list xs) => xs
  | _ => []

/-- The query cache: every query object currently known to the `QueryClient`
(its key and its possibly-undefined `data`), plus the keys currently marked
invalidated. -/
structure Cache where
  entries : List (QKey × Option CacheVal)
  invalidated : List QKey
deriving DecidableEq, Repr

/-- Look up a query object by key (`none` when no query with this key
exists). -/
def lookupEntry : List (QKey × Option CacheVal) → QKey → Option (Option CacheVal)
  | [], _ => none
  | (k', v) :: rest, k => if k' = k then some v else lookupEntry rest k

/-- `queryClient.getQueryData(key)`: `undefined` when the query is missing or
its data is undefined. -/
def getQueryData (c : Cache) (k : QKey) : Option CacheVal :=
  (lookupEntry c.entries k).join

/-- Replace the data of an existing query, or append a fresh query object. -/
def setEntry : List (QKey × Option CacheVal) → QKey → Option CacheVal →
    List (QKey × Option CacheVal)
  | [], k, v => [(k, v)]
  | (k', v') :: rest, k, v =>
      if k' = k then (k, v) :: rest else (k', v') :: setEntry rest k v

/-- `queryClient.setQueryData(key, value)` for a defined `value`. -/
def setQueryData (c : Cache) (k : QKey) (v : CacheVal) : Cache :=
  { c with entries := setEntry c.entries k (some v) }

/-- `queryClient.setQueryData(key, value)` where `value` may be `undefined`:
per TanStack's documented semantics, setting `undefined` does not update the
query data. -/
def setQueryDataOpt (c : Cache) (k : QKey) (v : Option CacheVal) : Cache :=
  match v with
  | none => c
  | some v => setQueryData c k v

/-- `queryClient.removeQueries({queryKey})` with exact key match. -/
def removeQueryExact (c : Cache) (k : QKey) : Cache :=
  { c with entries := c.entries.filter (fun e => e.1 ≠ k) }

/-- `pre` is an initial segment of `k` (TanStack's default partial key
matching). -/
def keyStartsWith : QKey → QKey → Bool
  | _, [] => true
  | [], _ :: _ => false
  | a :: as, b :: bs => a = b && keyStartsWith as bs

/-- `queryClient.invalidateQueries({queryKey})`: mark every existing query
whose key extends the given key as invalidated. -/
def invalidateQueries (c : Cache) (k : QKey) : Cache :=
  { c with invalidated :=
      c.invalidated ++ (c.entries.map Prod.fst).filter (fun q => keyStartsWith q k) }

/-- Whether a key is currently marked invalidated
(`getQueryState(key)?.isInvalidated`). -/
def isInvalidated (c : Cache) (k : QKey) : Bool :=
  c.invalidated.contains k

/-- Well-formedness of the query cache: query keys are unique, as guaranteed
by TanStack (one query object per key). -/
def Cache.wf (c : Cache) : Prop :=
  (c.entries.map Prod.fst).Nodup

instance (c : Cache) : Decidable c.wf := by
  unfold Cache.wf; infer_instance

/-- Join strings with a separator (`Array.prototype.join`). -/
def strJoin (sep : String) : List String → String
  | [] => ""
  | [x] => x
  | x :: xs => x ++ sep ++ strJoin sep xs

/-- `s.split("::")` specialised to the `::` separator used by the signature
format (greedy leftmost match, like `String.prototype.split`). -/
def splitColonsAux : List Char → List Char → List (List Char)
  | [], acc => [acc.reverse]
  | ':' :: ':' :: rest, acc => acc.reverse :: splitColonsAux rest []
  | c :: rest, acc => splitColonsAux rest (c :: acc)

/-- `s.split("::")`. -/
def strSplitColons (s : String) : List String :=
  (splitColonsAux s.toList []).map String.mk

/-- `s.endsWith(suffix)`. -/
def strEndsWith (s suf : String) : Bool :=
  charsStartWith s.toList.reverse suf.toList.reverse

/-- `s.toLowerCase()` (ASCII; model ids and relation names are ASCII). -/
def strToLower (s : String) : String :=
  String.mk (s.toList.map Char.toLower)

/-- `s.slice(0, n)` / bounding a string to `n` characters. -/
def strTake (s : String) (n : Nat) : String :=
  String.mk (s.toList.take n)

/-- Lexicographic `a <= b` on code points (JS default string comparison). -/
def charsLe (a b : List Char) : Bool :=
  match a, b with
  | [], _ => true
  | _ :: _, [] => false
  | x :: xs, y :: ys => if x = y then charsLe xs ys else decide (x < y)

/-- Insert into a sorted list (helper for `jsSortStrs`). -/
def insSorted (x : String) : List String → List String
  | [] => [x]
  | y :: ys => if charsLe x.toList y.toList then x :: y :: ys else y :: insSorted x ys

/-- `Array.prototype.sort()` on strings (default lexicographic comparison). -/
def jsSortStrs (l : List String) : List String :=
  l.foldr insSorted []

/-- `field.replace(/Id$/, "").replace(/^./, c => c.toUpperCase())`: derive a
relation name from a relation field (`"dailyId"` to `"Daily"`). -/
def relationNameOfField (f : String) : String :=
  let base := if strEndsWith f "Id" then String.mk (f.toList.take (f.toList.length - 2)) else f
  match base.toList with
  | [] => ""
  | c :: rest => String.mk (Char.toUpper c :: rest)

-- -------------------------------
-- Query key helpers (src/service.ts lines 35-41)
-- -------------------------------

/-- `itemKey(modelName, id)`: the single-item key `[model, "item", id]`. -/
def itemKey (modelName id : String) : QKey :=
  [.str modelName, .str "item", .str id]

/-- `isItemKeyForModel(modelName, key)`: `key[0] === modelName && key[1] ===
"item"` (out-of-range indexing yields `undefined`, which compares unequal to
any string). -/
def isItemKeyForModel (modelName : String) (key : QKey) : Bool :=
  key.getD 0 .undef == .str modelName && key.getD 1 .undef == .str "item"

/-- `findRelatedQueryKeys(modelName, queryClient)`: every query key currently
in the cache whose first token is the model name, excluding single-item keys
and the internal singleton marker `[model, "currentId"]`. -/
def findRelatedQueryKeys (modelName : String) (c : Cache) : List QKey :=
  (c.entries.map Prod.fst).filter (fun k =>
    k.getD 0 .undef == .str modelName &&
    !isItemKeyForModel modelName k &&
    k.getD 1 .undef != .str "currentId")

-- -------------------------------
-- signatureForModelItem / areItemArraysEquivalentById (lines 43-109)
-- -------------------------------

/-- `typeof item?.f === "string" ? item.f : ""`. -/
def sigStrField (item : JSObj) (f : String) : String :=
  match objLookup item f with
  | some (.atom (.astr s)) => s
  | _ => ""

/-- The "version-ish" marker: `_lastChangedAt`, else `_version`, else
`version`, each only when it is a number; otherwise empty.  (Mirrors lines 52-59.) -/
def sigVersionMarker (item : JSObj) : String :=
  match objLookup item "_lastChangedAt" with
  | some (.atom (.anum n)) => toString n
  | _ =>
    match objLookup item "_version" with
    | some (.atom (.anum n)) => toString n
    | _ =>
      match objLookup item "version" with
      | some (.atom (.anum n)) => toString n
      | _ => ""

/-- One `key=value` part of the shallow signature (lines 65-83). -/
def shallowPart (key : String) (v : JSVal) : String :=
  match v with
  | .atom .anull => key ++ "=null"
  | .atom (.abool b) => key ++ "=" ++ (if b then "true" else "false")
  | .atom (.anum n) => key ++ "=" ++ toString n
  | .atom (.astr s) => key ++ "=" ++ s
  | .arr xs => key ++ "=[" ++ toString xs.length ++ "]"
  | .obj _ => key ++ "=\x7b\x7d"

/-- The bounded shallow field fingerprint: sorted keys, `__typename` skipped,
parts joined with `|`, truncated to 500 characters (lines 61-86). -/
def shallowSigOf (item : JSObj) : String :=
  let keys := jsSortStrs (item.map Prod.fst)
  let parts := keys.filterMap (fun k =>
    if k = "__typename" then none
    else (objLookup item k).map (shallowPart k))
  strTake (strJoin "|" parts) 500

/-- `signatureForModelItem(item)` (lines 43-89):
`id::updatedAt::createdAt::versionMarker::shallowSig`. -/
def signatureForModelItem (item : JSObj) : String :=
  sigStrField item "id" ++ "::" ++ sigStrField item "updatedAt" ++ "::" ++
    sigStrField item "createdAt" ++ "::" ++ sigVersionMarker item ++ "::" ++
    shallowSigOf item

/-- `const [id, ts] = sig.split("::")`: only the first two components of the
signature (the id and `updatedAt`) survive this destructuring. -/
def sigIdTs (item : JSObj) : String × String :=
  let parts := strSplitColons (signatureForModelItem item)
  (parts.getD 0 "", parts.getD 1 "")

/-- `Map.prototype.set` over string keys (overwrite semantics). -/
def sigMapInsert (m : List (String × String)) (k v : String) : List (String × String) :=
  match m with
  | [] => [(k, v)]
  | (k', v') :: rest => if k' = k then (k, v) :: rest else (k', v') :: sigMapInsert rest k v

/-- `Map.prototype.get` over string keys. -/
def sigMapGet (m : List (String × String)) (k : String) : Option String :=
  match m with
  | [] => none
  | (k', v) :: rest => if k' = k then some v else sigMapGet rest k

/-- `areItemArraysEquivalentById(a, b)` (lines 91-109).  The source first
tests `a === b` (reference equality) and `Array.isArray`; the arrays compared
by the subscriber are always distinct freshly built arrays, so the shortcut
never fires and both inputs are arrays. -/
def areItemArraysEquivalentById (a b : List JSObj) : Bool :=
  if a.length ≠ b.length then false
  else
    let mapA := a.foldl (fun m item =>
      let (id, ts) := sigIdTs item
      if id = "" then m else sigMapInsert m id ts) []
    b.all (fun item =>
      let (id, ts) := sigIdTs item
      if id = "" then false
      else sigMapGet mapA id == some ts)

-- -------------------------------
-- JSON.stringify (insertion-order serialization, as used for key building)
-- -------------------------------

/-- `JSON.stringify` of a scalar.  Escaping inside strings is not modelled;
the values serialized into query keys contain no quotes or backslashes. -/
def jsonAtom : JSAtom → String
  | .anull => "null"
  | .abool true => "true"
  | .abool false => "false"
  | .anum n => toString n
  | .astr s => "\"" ++ s ++ "\""

/-- `JSON.stringify` of a clause operand. -/
def jsonLite : JSLite → String
  | .la a => jsonAtom a
  | .larr xs => "[" ++ strJoin "," (xs.map jsonAtom) ++ "]"

/-- `JSON.stringify` of a field value. -/
def jsonVal : JSVal → String
  | .atom a => jsonAtom a
  | .arr xs => "[" ++ strJoin "," (xs.map jsonAtom) ++ "]"
  | .obj fs => "\x7b" ++ strJoin "," (fs.map (fun kv => "\"" ++ kv.1 ++ "\":" ++ jsonLite kv.2)) ++ "\x7d"

/-- `JSON.stringify(object)`: fields serialized in the object's own
enumeration order — the encoding the source uses when building query keys. -/
def jsonStringify (o : JSObj) : String :=
  "\x7b" ++ strJoin "," (o.map (fun kv => "\"" ++ kv.1 ++ "\":" ++ jsonVal kv.2)) ++ "\x7d"

-- -------------------------------
-- Client-side filter predicate (src/service.ts lines 945-972 and 1026-1054)
-- -------------------------------

/-- `itemValue === scalar` (strict equality; arrays and objects compare by
reference, hence unequal to the filter's own operand). -/
def jsEqAtom (o : Option JSVal) (a : JSAtom) : Bool :=
  match o with
  | some (.atom b) => b == a
  | _ => false

/-- `itemValue === operand` for a clause operand (`===` against the filter's
own array operand is reference inequality). -/
def jsEqLite (o : Option JSVal) (e : JSLite) : Bool :=
  match e with
  | .la a => jsEqAtom o a
  | .larr _ => false

/-- `itemValue > operand` for same-type scalar comparisons (numbers by
numeric order, strings by code-point order).  Cross-type JS coercions such as
`"10" > 5` are outside the modelled value shapes and yield `false`. -/
def jsGtA (o : Option JSVal) (b : JSAtom) : Bool :=
  match o, b with
  | some (.atom (.anum a)), .anum b => decide (b < a)
  | some (.atom (.astr a)), .astr b => charsLe a.toList b.toList == false
  | _, _ => false

/-- `itemValue < operand` (same conventions as `jsGtA`). -/
def jsLtA (o : Option JSVal) (b : JSAtom) : Bool :=
  match o, b with
  | some (.atom (.anum a)), .anum b => decide (a < b)
  | some (.atom (.astr a)), .astr b => charsLe b.toList a.toList == false
  | _, _ => false

/-- `itemValue >= operand` (same conventions as `jsGtA`). -/
def jsGeA (o : Option JSVal) (b : JSAtom) : Bool :=
  match o, b with
  | some (.atom (.anum a)), .anum b => decide (b ≤ a)
  | some (.atom (.astr a)), .astr b => charsLe b.toList a.toList
  | _, _ => false

/-- `itemValue <= operand` (same conventions as `jsGtA`). -/
def jsLeA (o : Option JSVal) (b : JSAtom) : Bool :=
  match o, b with
  | some (.atom (.anum a)), .anum b => decide (a ≤ b)
  | some (.atom (.astr a)), .astr b => charsLe a.toList b.toList
  | _, _ => false

/-- `> `/`<` against a clause operand; comparison with the operand array
falls outside the modelled shapes and is `false`. -/
def jsGtLite (o : Option JSVal) (e : JSLite) : Bool :=
  match e with
  | .la a => jsGtA o a
  | .larr _ => false

/-- See `jsGtLite`. -/
def jsLtLite (o : Option JSVal) (e : JSLite) : Bool :=
  match e with
  | .la a => jsLtA o a
  | .larr _ => false

/-- One filter clause, mirroring the `if`-chain of the source exactly: a
non-null object value enters the operator chain (`eq`, `ne`, `gt`, `lt`,
`contains`, then `between` when its operand is an array); anything that falls
through the chain — and any array value — is compared with `===` against the
whole clause value, which is reference inequality (`false`) for the fresh
objects handled here; a scalar value is compared with `===` directly. -/
def evalFilterClause (itemValue : Option JSVal) (v : JSVal) : Bool :=
  match v with
  | .atom a => jsEqAtom itemValue a
  | .arr _ => false
  | .obj fs =>
      match liteLookup fs "eq", liteLookup fs "ne", liteLookup fs "gt",
            liteLookup fs "lt", liteLookup fs "contains", liteLookup fs "between" with
      | some e, _, _, _, _, _ => jsEqLite itemValue e
      | none, some e, _, _, _, _ => !(jsEqLite itemValue e)
      | none, none, some e, _, _, _ => jsGtLite itemValue e
      | none, none, none, some e, _, _ => jsLtLite itemValue e
      | none, none, none, none, some e, _ =>
          strIncludes (jsValToStr itemValue) (liteToStr e)
      | none, none, none, none, none, some (.larr (b0 :: b1 :: _)) =>
          jsGeA itemValue b0 && jsLeA itemValue b1
      | none, none, none, none, none, some (.larr _) => false
      | none, none, none, none, none, _ => false

/-- The client-side filter applied by `list` after fetching: every filter
entry must match (`Object.entries(filter).every(...)`, logical AND). -/
def applyClientFilter (filter : Option JSObj) (items : List JSObj) : List JSObj :=
  match filter with
  | none => items
  | some f => items.filter (fun item =>
      f.all (fun kv => evalFilterClause (objLookup item kv.1) kv.2))

/-- Spec-side meaning of one filter clause, written from the spec's words
("supported operators: equality, inequality, greater-than, less-than,
substring containment, inclusive range"; `between:[a,b]` holds iff
`a <= value <= b`, inclusive on both ends).  Only single-operator clauses
have a spec-given meaning. -/
def specClauseHolds (itemValue : Option JSVal) (v : JSVal) : Bool :=
  match v with
  | .atom a => itemValue == some (.atom a)
  | .obj [("eq", .la a)] => itemValue == some (.atom a)
  | .obj [("ne", .la a)] => itemValue != some (.atom a)
  | .obj [("gt", .la (.anum b))] =>
      match itemValue with
      | some (.atom (.anum x)) => decide (b < x)
      | _ => false
  | .obj [("gt", .la (.astr t))] =>
      match itemValue with
      | some (.atom (.astr s)) => charsLe s.toList t.toList == false
      | _ => false
  | .obj [("lt", .la (.anum b))] =>
      match itemValue with
      | some (.atom (.anum x)) => decide (x < b)
      | _ => false
  | .obj [("lt", .la (.astr t))] =>
      match itemValue with
      | some (.atom (.astr s)) => charsLe t.toList s.toList == false
      | _ => false
  | .obj [("contains", .la a)] =>
      strIncludes (jsValToStr itemValue) (atomToStr a)
  | .obj [("between", .larr [.anum a, .anum b])] =>
      match itemValue with
      | some (.atom (.anum x)) => decide (a ≤ x) && decide (x ≤ b)
      | _ => false
  | .obj [("between", .larr [.astr a, .astr b])] =>
      match itemValue with
      | some (.atom (.astr s)) => charsLe a.toList s.toList && charsLe s.toList b.toList
      | _ => false
  | _ => false

/-- A filter whose every clause is a single-operator clause of one of the
spec-recognized shapes. -/
def wfClause : JSVal → Bool
  | .atom _ => true
  | .obj [("eq", .la _)] => true
  | .obj [("ne", .la _)] => true
  | .obj [("gt", .la (.anum _))] => true
  | .obj [("gt", .la (.astr _))] => true
  | .obj [("lt", .la (.anum _))] => true
  | .obj [("lt", .la (.astr _))] => true
  | .obj [("contains", .la _)] => true
  | .obj [("between", .larr [.anum _, .anum _])] => true
  | .obj [("between", .larr [.astr _, .astr _])] => true
  | _ => false

/-- Spec-side filter predicate: every clause holds (logical AND). -/
def specFilterHolds (f : JSObj) (item : JSObj) : Bool :=
  f.all (fun kv => specClauseHolds (objLookup item kv.1) kv.2)

-- -------------------------------
-- Transport responses and the snapshot map
-- -------------------------------

/-- A transport `{data, errors}` response for a single-record operation
(`errors` may be populated even when no exception is thrown). -/
structure MutRes where
  data : Option JSObj
  errors : List String
deriving DecidableEq, Repr

/-- Outcome of one awaited transport call: a thrown error (with its message)
or a `{data, errors}` response. -/
abbrev ApiRes := Except String MutRes

/-- The `previousDataMap`: a `Map` keyed by query-key arrays.  Every key array
stored by the source is a distinct array object, so entries are appended in
insertion order and iterated in that order on rollback. -/
abbrev Snapshot := List (QKey × Option CacheVal)

/-- `rollbackCache(queryClient, previousDataMap)` (lines 337-344): restore
every snapshot entry in insertion order with `setQueryData`; restoring an
`undefined` snapshot value is a no-op per TanStack semantics. -/
def rollbackCache (c : Cache) (previousDataMap : Snapshot) : Cache :=
  previousDataMap.foldl (fun c kv => setQueryDataOpt c kv.1 kv.2) c

/-- `queryKey.length > 3 && typeof queryKey[1] === "string" && typeof
queryKey[2] === "string"`: the relational-key test used by the mutation
engine. -/
def isRelationalKey (qk : QKey) : Bool :=
  decide (qk.length > 3) &&
  (match qk.getD 1 .undef with | .str _ => true | _ => false) &&
  (match qk.getD 2 .undef with | .str _ => true | _ => false)

/-- Extract a string token (only used on positions already known to hold a
string token). -/
def keyTokStr : KeyTok → String
  | .str s => s
  | _ => ""

/-- Relation membership of an item against a relational key:
`item[relationName.toLowerCase() + "Id"] === relationId`. -/
def belongsToRelation (item : JSObj) (qk : QKey) : Bool :=
  objLookup item (strToLower (keyTokStr (qk.getD 1 .undef)) ++ "Id") ==
    some (.atom (.astr (keyTokStr (qk.getD 2 .undef))))

/-- `item.id === itemId` over a list element. -/
def hasId (item : JSObj) (itemId : String) : Bool :=
  objLookup item "id" == some (.atom (.astr itemId))

-- -------------------------------
-- performOptimisticUpdate (lines 185-255)
-- -------------------------------

/-- One related key of `performOptimisticUpdate`'s list loop (lines 220-252):
snapshot the previous data unconditionally, then replace the matching-id
entry if present, else append the optimistic record only to arity-1 keys;
`setQueryData` is called in every branch (with a fresh array). -/
def optimisticUpdateKey (m itemId : String) (optimisticData updateData : JSObj)
    (acc : Snapshot × Cache) (qk : QKey) : Snapshot × Cache :=
  if isItemKeyForModel m qk then acc
  else
    let (snap, c) := acc
    let previousItems := getQueryData c qk
    let oldItems := asItemArray previousItems
    let newItems :=
      if oldItems.any (fun item => hasId item itemId) then
        oldItems.map (fun item => if hasId item itemId then objMerge item updateData else item)
      else if qk.length = 1 then oldItems ++ [optimisticData]
      else oldItems
    (snap ++ [(qk, previousItems)], setQueryData c qk (.list newItems))

/-- `performOptimisticUpdate` (lines 185-255): verify `updateData.id` equals
the requested id (skip everything on mismatch, returning an empty snapshot),
merge the update into the single-item key, then update every related list
key. -/
def performOptimisticUpdate (c : Cache) (m : String) (relatedQueryKeys : List QKey)
    (itemId : String) (updateData : JSObj) : Snapshot × Cache :=
  match objLookup updateData "id" with
  | some (.atom (.astr s)) =>
      if s = "" ∨ s ≠ itemId then ([], c)
      else
        let singleItemQueryKey := itemKey m itemId
        let previousItemSingle := getQueryData c singleItemQueryKey
        let optimisticData :=
          match previousItemSingle with
          | some (.record r) => objMerge r updateData
          | _ => updateData
        let c1 := setQueryData c singleItemQueryKey (.record optimisticData)
        relatedQueryKeys.foldl (optimisticUpdateKey m itemId optimisticData updateData)
          ([(singleItemQueryKey, previousItemSingle)], c1)
  | _ => ([], c)

-- -------------------------------
-- handleCacheUpdateOnSuccess (lines 265-330)
-- -------------------------------

/-- One related key of `handleCacheUpdateOnSuccess`'s loop (lines 289-329):
skip relational keys the item does not belong to; otherwise replace the
matching-id entry or append the authoritative item. -/
def successUpdateKey (itemId : String) (updatedItem : JSObj) (c : Cache) (qk : QKey) : Cache :=
  if isRelationalKey qk && !belongsToRelation updatedItem qk then c
  else
    let oldItems := asItemArray (getQueryData c qk)
    let newItems :=
      if oldItems.any (fun item => hasId item itemId) then
        oldItems.map (fun item => if hasId item itemId then updatedItem else item)
      else oldItems ++ [updatedItem]
    setQueryData c qk (.list newItems)

/-- `handleCacheUpdateOnSuccess` (lines 265-330): verify the authoritative
item's id equals the requested id — on mismatch skip every cache write —
then overwrite the item key and update every related list key with relational
filtering. -/
def handleCacheUpdateOnSuccess (c : Cache) (m : String) (relatedQueryKeys : List QKey)
    (itemId : String) (updatedItem : JSObj) : Cache :=
  match objLookup updatedItem "id" with
  | some (.atom (.astr s)) =>
      if s = "" ∨ s ≠ itemId then c
      else relatedQueryKeys.foldl (successUpdateKey itemId updatedItem)
             (setQueryData c (itemKey m itemId) (.record updatedItem))
  | _ => c

-- -------------------------------
-- create (lines 398-563)
-- -------------------------------

/-- Relation fields of a record: every field whose name ends in `Id` with a
non-empty string value (lines 428-434). -/
def relationFieldsOf (item : JSObj) : List (String × String) :=
  item.filterMap (fun kv =>
    if strEndsWith kv.1 "Id" then
      match kv.2 with
      | .atom (.astr s) => if s ≠ "" then some (kv.1, s) else none
      | _ => none
    else none)

/-- `if (data) previousDataMap.set(queryKey, data)`: snapshot only a defined,
truthy previous value (an absent or `null` entry is not snapshotted). -/
def snapIfTruthy (snap : Snapshot) (qk : QKey) (data : Option CacheVal) : Snapshot :=
  if (data.map CacheVal.truthy).getD false then snap ++ [(qk, data)] else snap

/-- One related key of `create`'s optimistic loop (lines 450-494): append the
new record to a relational key only when it belongs to the relation, and to
every short (arity < 3) non-singleton list key unconditionally; snapshot the
previous value only when it was truthy. -/
def createApplyKey (newItem : JSObj) (acc : Snapshot × Cache) (qk : QKey) :
    Snapshot × Cache :=
  let (snap, c) := acc
  if isRelationalKey qk then
    if belongsToRelation newItem qk then
      let data := getQueryData c qk
      (snapIfTruthy snap qk data,
       setQueryData c qk (.list (asItemArray data ++ [newItem])))
    else (snap, c)
  else if decide (qk.length < 3) && (qk.getD 1 .undef != .str "currentId") then
    let data := getQueryData c qk
    (snapIfTruthy snap qk data,
     setQueryData c qk (.list (asItemArray data ++ [newItem])))
  else (snap, c)

/-- `create`'s success-path invalidations (lines 516-534): one relational
invalidation per relation field, then the whole model. -/
def invalidateRelations (c : Cache) (m : String) (relationFields : List (String × String)) : Cache :=
  relationFields.foldl (fun c fv =>
    invalidateQueries c [.str m, .str (relationNameOfField fv.1), .str fv.2]) c

/-- `create`'s prepared record: owner field stripped (`removeOwnerField`),
`undefined`-valued fields dropped (identity on the modelled objects), and the
id synthesized when absent or empty (`cleanedData.id || randomUUID()`;
record ids are strings per `BaseModel`). -/
def createPrepared (data : JSObj) (uuid : String) : JSObj :=
  let cleanedData := data.filter (fun kv => kv.1 ≠ "owner")
  let newId :=
    match objLookup cleanedData "id" with
    | some (.atom (.astr s)) => if s = "" then uuid else s
    | _ => uuid
  objMerge cleanedData [("id", .atom (.astr newId))]

/-- The id of the prepared record. -/
def createPreparedId (data : JSObj) (uuid : String) : String :=
  match objLookup (data.filter (fun kv => kv.1 ≠ "owner")) "id" with
  | some (.atom (.astr s)) => if s = "" then uuid else s
  | _ => uuid

/-- `create` up to (but excluding) its outer `catch` (lines 402-558): prepare
the record, snapshot and apply the optimistic write across the item key and
every related key, call the transport, and on success overwrite the item key
with the authoritative record and invalidate; on a thrown error roll back
once; on an empty-data response roll back, throw, and roll back again in the
`catch (apiError)` block before rethrowing. -/
def createInner (c : Cache) (m : String) (data : JSObj) (uuid : String) (api : ApiRes) :
    Except String JSObj × Cache :=
  let newItem := createPrepared data uuid
  let newId := createPreparedId data uuid
  let relationFields := relationFieldsOf newItem
  let relatedQueryKeys := findRelatedQueryKeys m c
  let singleItemQueryKey := itemKey m newId
  let previousItemSingle := getQueryData c singleItemQueryKey
  let c1 := setQueryData c singleItemQueryKey (.record newItem)
  let folded := relatedQueryKeys.foldl (createApplyKey newItem)
      ([(singleItemQueryKey, previousItemSingle)], c1)
  let previousDataMap := folded.1
  let c2 := folded.2
  match api with
  | .ok res =>
      match res.data with
      | some createdItem =>
          -- success: overwrite the item key with the server record (no id
          -- verification on this path), then invalidate
          let c3 := setQueryData c2 singleItemQueryKey (.record createdItem)
          let c4 := invalidateRelations c3 m relationFields
          (.ok createdItem, invalidateQueries c4 [.str m])
      | none =>
          let c3 := rollbackCache c2 previousDataMap
          (.error "create returned no data", rollbackCache c3 previousDataMap)
  | .error e => (.error e, rollbackCache c2 previousDataMap)

/-- `create` (lines 398-563): the outer `catch` converts any error into a
`null` result. -/
def createRun (c : Cache) (m : String) (data : JSObj) (uuid : String) (api : ApiRes) :
    Option JSObj × Cache :=
  match createInner c m data uuid api with
  | (.ok created, c') => (some created, c')
  | (.error _, c') => (none, c')

-- -------------------------------
-- update (lines 1091-1186)
-- -------------------------------

/-- `update` (lines 1091-1186): validate the id, apply the optimistic update,
call the transport; on success reconcile via `handleCacheUpdateOnSuccess` and
invalidate the model; on a thrown error roll back once; on an empty-data
response roll back, throw, and roll back again in the `catch` before
rethrowing; the outer `catch` converts any error into `null`. -/
def updateRun (c : Cache) (m : String) (data : JSObj) (api : ApiRes) :
    Option JSObj × Cache :=
  match objLookup data "id" with
  | some (.atom (.astr id)) =>
      if id = "" then (none, c)
      else
        let cleanedData := data.filter (fun kv => kv.1 ≠ "owner")
        let relatedQueryKeys := findRelatedQueryKeys m c
        let po := performOptimisticUpdate c m relatedQueryKeys id cleanedData
        let previousDataMap := po.1
        let c1 := po.2
        match api with
        | .ok res =>
            match res.data with
            | some updatedItem =>
                let c2 := handleCacheUpdateOnSuccess c1 m relatedQueryKeys id updatedItem
                (some updatedItem, invalidateQueries c2 [.str m])
            | none =>
                let c2 := rollbackCache c1 previousDataMap
                (none, rollbackCache c2 previousDataMap)
        | .error _ => (none, rollbackCache c1 previousDataMap)
  | _ => (none, c)

-- -------------------------------
-- delete (lines 1189-1275)
-- -------------------------------

/-- One related key of `delete`'s optimistic loop (lines 1216-1228): snapshot
only a truthy previous value, then filter the deleted id out of the list. -/
def deleteApplyKey (m id : String) (acc : Snapshot × Cache) (qk : QKey) :
    Snapshot × Cache :=
  if isItemKeyForModel m qk then acc
  else
    let (snap, c) := acc
    let data := getQueryData c qk
    (snapIfTruthy snap qk data,
     setQueryData c qk (.list ((asItemArray data).filter (fun item => !hasId item id))))

/-- `delete` (lines 1189-1275): null the item key, remove the id from every
related list, call the transport; a response carrying errors throws; on any
failure roll back from the snapshot and return `false`; on success invalidate
every related key and the item key and return `true`. -/
def deleteRun (c : Cache) (m id : String) (api : ApiRes) : Bool × Cache :=
  if id = "" then (false, c)
  else
    let relatedQueryKeys := findRelatedQueryKeys m c
    let singleItemQueryKey := itemKey m id
    let previousItemSingle := getQueryData c singleItemQueryKey
    let c1 := setQueryData c singleItemQueryKey .vnull
    let folded := relatedQueryKeys.foldl (deleteApplyKey m id)
        ([(singleItemQueryKey, previousItemSingle)], c1)
    let previousDataMap := folded.1
    let c2 := folded.2
    match api with
    | .ok res =>
        if res.errors ≠ [] then (false, rollbackCache c2 previousDataMap)
        else
          let c3 := relatedQueryKeys.foldl (fun c qk => invalidateQueries c qk) c2
          (true, invalidateQueries c3 singleItemQueryKey)
    | .error _ => (false, rollbackCache c2 previousDataMap)

-- -------------------------------
-- deleteList (lines 1278-1436)
-- -------------------------------

/-- Result of `deleteList`: the ids that succeeded and the ids that failed. -/
structure DeleteListResult where
  success : List String
  failed : List String
deriving DecidableEq, Repr

/-- `previousItemsCache.set(id, previousItemSingle || null)` (line 1312):
an absent or falsy previous item is recorded as `null`. -/
def prevItemOrNull (v : Option CacheVal) : CacheVal :=
  match v with
  | some w => if w.truthy then w else .vnull
  | none => .vnull

/-- The optimistic item-key pass of `deleteList` (lines 1307-1315): null
every item key, recording both the `previousItemsCache` entry and the
snapshot entry. -/
def deleteListNullItems (m : String) (ids : List String)
    (acc : List (String × CacheVal) × Snapshot × Cache) :
    List (String × CacheVal) × Snapshot × Cache :=
  ids.foldl (fun acc id =>
    let (prevCache, snap, c) := acc
    let k := itemKey m id
    let prev := getQueryData c k
    (prevCache ++ [(id, prevItemOrNull prev)], snap ++ [(k, prev)],
     setQueryData c k .vnull)) acc

/-- One related key of `deleteList`'s optimistic loop (lines 1318-1332):
snapshot only a truthy previous value, then drop every listed id. -/
def deleteListApplyKey (m : String) (ids : List String)
    (acc : Snapshot × Cache) (qk : QKey) : Snapshot × Cache :=
  if isItemKeyForModel m qk then acc
  else
    let (snap, c) := acc
    let data := getQueryData c qk
    let newItems := (asItemArray data).filter (fun item =>
      match objLookup item "id" with
      | some (.atom (.astr s)) => !ids.contains s
      | _ => true)
    (snapIfTruthy snap qk data, setQueryData c qk (.list newItems))

/-- `Map.prototype.get` over the `previousItemsCache`. -/
def prevCacheGet (m : List (String × CacheVal)) (k : String) : Option CacheVal :=
  match m with
  | [] => none
  | (k', v) :: rest => if k' = k then some v else prevCacheGet rest k

/-- The partial-rollback pass for one failed id (lines 1371-1405): restore
the item key from `previousItemsCache`, then re-insert the failed record
into every related key whose length exceeds 1 and whose second token is not
a deleted id — the top-level `[model]` key has length 1 and is skipped. -/
def deleteListRestoreFailed (m : String) (ids : List String)
    (relatedQueryKeys : List QKey) (prevCache : List (String × CacheVal))
    (c : Cache) (failedId : String) : Cache :=
  let c1 :=
    match prevCacheGet prevCache failedId with
    | some previousItem => setQueryData c (itemKey m failedId) previousItem
    | none => c
  relatedQueryKeys.foldl (fun c qk =>
    if decide (qk.length > 1) &&
       !(match qk.getD 1 .undef with | .str s => ids.contains s | _ => false) then
      let oldItems := asItemArray (getQueryData c qk)
      -- a `null` (falsy) previous item adds nothing (`if (!previousItem)
      -- return oldItems`); item keys only ever hold records
      match prevCacheGet prevCache failedId with
      | some (.record previousItem) =>
          if oldItems.any (fun item => hasId item failedId) then
            setQueryData c qk (.list oldItems)
          else setQueryData c qk (.list (oldItems ++ [previousItem]))
      | _ => setQueryData c qk (.list oldItems)
    else c) c1

/-- `deleteList` (lines 1278-1436): optimistically null every item key and
drop the ids from every related list; issue one transport delete per id
(a response carrying errors counts as that id failing); roll back each
failed id individually (restore its item key, re-insert it into the related
keys selected above) while successful ids keep their optimistic state;
finally invalidate every related key and every item key.  The batch-level
`catch` (full rollback, all ids failed) only fires on non-per-item failures,
which have no representation here since each per-id call is handled by its
own `catch`. -/
def deleteListRun (c : Cache) (m : String) (ids : List String)
    (api : String → Except String (List String)) : DeleteListResult × Cache :=
  if ids.isEmpty then (⟨[], []⟩, c)
  else
    let relatedQueryKeys := findRelatedQueryKeys m c
    let step1 := deleteListNullItems m ids ([], [], c)
    let prevCache := step1.1
    let c1 := step1.2.2
    let folded := relatedQueryKeys.foldl (deleteListApplyKey m ids) (step1.2.1, c1)
    let c2 := folded.2
    let successIds := ids.filter (fun id =>
      match api id with
      | .ok errs => errs.isEmpty
      | .error _ => false)
    let failedIds := ids.filter (fun id =>
      match api id with
      | .ok errs => !errs.isEmpty
      | .error _ => true)
    let c3 := failedIds.foldl (deleteListRestoreFailed m ids relatedQueryKeys prevCache) c2
    let c4 := relatedQueryKeys.foldl (fun c qk => invalidateQueries c qk) c3
    let c5 := ids.foldl (fun c id => invalidateQueries c (itemKey m id)) c4
    (⟨successIds, failedIds⟩, c5)

-- -------------------------------
-- get (lines 765-867)
-- -------------------------------

/-- A transport `get` response payload: a single record, or (shape anomaly)
an array of possibly-null records. -/
inductive GetData where
  | single (r : JSObj)
  | many (xs : List (Option JSObj))
deriving DecidableEq, Repr

/-- A transport `get` `{data, errors}` response. -/
structure GetRes where
  data : Option GetData
  errors : List String

/-- Outcome of one awaited transport `get`. -/
abbrev GetApi := Except String GetRes

/-- Normalization of an array-shaped `get` response (lines 810-819): the
entry whose id matches, else the first entry, else `null`. -/
def getNormalize (id : String) : GetData → Option JSObj
  | .single r => some r
  | .many xs =>
      match xs.find? (fun o =>
        match o with
        | some r => hasId r id
        | none => false) with
      | some (some r) => some r
      | _ => xs.getD 0 none

/-- One related key of `get`'s opportunistic merge (lines 833-854): for keys
of length above 1 whose second token is not the id, replace the matching
entry or append the fetched item. -/
def getMergeKey (id : String) (item : JSObj) (c : Cache) (qk : QKey) : Cache :=
  if decide (qk.length > 1) && (qk.getD 1 .undef != .str id) then
    let oldItems := asItemArray (getQueryData c qk)
    let newItems :=
      if oldItems.any (fun o => hasId o id) then
        oldItems.map (fun o => if hasId o id then item else o)
      else oldItems ++ [item]
    setQueryData c qk (.list newItems)
  else c

/-- `get` (lines 765-867): serve a truthy, id-consistent cached item without
any transport call; drop an id-inconsistent cached item and refetch; on a
fetched item whose id matches, store it and opportunistically merge it into
the related list keys; errors degrade to `null`. -/
def getRun (c : Cache) (m id : String) (forceRefresh : Bool) (api : GetApi) :
    Option JSObj × Cache :=
  let singleItemQueryKey := itemKey m id
  let cached := getQueryData c singleItemQueryKey
  let cacheHitItem : Option JSObj :=
    if forceRefresh then none
    else match cached with
      | some (.record r) => if hasId r id then some r else none
      | _ => none
  match cacheHitItem with
  | some r => (some r, c)
  | none =>
      -- on an id mismatch the stale entry is removed before the fetch
      let c0 :=
        if !forceRefresh then
          match cached with
          | some (.record r) => if hasId r id then c else removeQueryExact c singleItemQueryKey
          | some (.list _) => removeQueryExact c singleItemQueryKey
          | _ => c
        else c
      match api with
      | .error _ => (none, c0)
      | .ok res =>
          match res.data with
          | none =>
              -- `!apiResponse && errors?.length` throws (degrading to null);
              -- otherwise `item` is undefined and `item || null` is null
              (none, c0)
          | some gd =>
              match getNormalize id gd with
              | none => (none, c0)
              | some item =>
                  if hasId item id && (match objLookup item "id" with
                      | some (.atom (.astr s)) => s ≠ ""
                      | _ => false) then
                    let c1 := setQueryData c0 singleItemQueryKey (.record item)
                    let relatedQueryKeys := findRelatedQueryKeys m c1
                    (some item, relatedQueryKeys.foldl (fun c qk => getMergeKey id item c qk) c1)
                  else (some item, c0)

-- -------------------------------
-- upsert (lines 1439-1561)
-- -------------------------------

/-- `upsert` (lines 1439-1561): validate the id, resolve the existing item
through `get` (cache first, transport on a miss), apply the optimistic
update, then take the update path when an item exists and the create path
otherwise; on success reconcile via `handleCacheUpdateOnSuccess` (no
invalidation on this path); failure handling mirrors `update` (double
rollback on an empty-data response, single rollback on a thrown error), and
the outer `catch` converts any error into `null`. -/
def upsertRun (c : Cache) (m : String) (data : JSObj) (getApi : GetApi)
    (updateApi createApi : ApiRes) : Option JSObj × Cache :=
  match objLookup data "id" with
  | some (.atom (.astr id)) =>
      if id = "" then (none, c)
      else
        let g := getRun c m id false getApi
        let existingItem := g.1
        let c0 := g.2
        let cleanedData := data.filter (fun kv => kv.1 ≠ "owner")
        let relatedQueryKeys := findRelatedQueryKeys m c0
        let po := performOptimisticUpdate c0 m relatedQueryKeys id cleanedData
        let previousDataMap := po.1
        let c1 := po.2
        let api := match existingItem with
          | some _ => updateApi
          | none => createApi
        match api with
        | .ok res =>
            match res.data with
            | some it => (some it, handleCacheUpdateOnSuccess c1 m relatedQueryKeys id it)
            | none =>
                let c2 := rollbackCache c1 previousDataMap
                (none, rollbackCache c2 previousDataMap)
        | .error _ => (none, rollbackCache c1 previousDataMap)
  | _ => (none, c)

-- -------------------------------
-- list (lines 870-1088)
-- -------------------------------

/-- A transport collection response: the already-unwrapped item array
(`result?.items || result?.data || result`), possibly containing nulls. -/
structure ListRes where
  data : Option (List (Option JSObj))
  errors : List String

/-- Outcome of one awaited transport collection query. -/
abbrev ListApi := Except String ListRes

/-- The key `list` resolves for the lookup: `[model, "filter", filterJSON]`
for a filtered call, `[model]` otherwise (lines 874-877). -/
def listKeyOf (m : String) (filter : Option JSObj) : QKey :=
  match filter with
  | some f => [.str m, .str "filter", .str (jsonStringify f)]
  | none => [.str m]

/-- The key `list`'s error handler invalidates (lines 1079-1084): always the
filter-shaped key; `JSON.stringify(undefined)` is JavaScript `undefined`. -/
def listErrKey (m : String) (filter : Option JSObj) : QKey :=
  [.str m, .str "filter",
   match filter with
   | some f => .str (jsonStringify f)
   | none => .undef]

/-- The shared cache-population tail of a successful collection fetch:
filter nulls out of the payload, apply the client filter, store the list
under the query key and each item under its own item key (skipping items
without a string id). -/
def listFetchCommon (c : Cache) (m : String) (filter : Option JSObj)
    (queryKey : QKey) (raw : List (Option JSObj)) : List JSObj × Cache :=
  let items := raw.filterMap id
  let filteredItems := applyClientFilter filter items
  let c1 := setQueryData c queryKey (.list filteredItems)
  let c2 := filteredItems.foldl (fun c item =>
    match objLookup item "id" with
    | some (.atom (.astr s)) => if s ≠ "" then setQueryData c (itemKey m s) (.record item) else c
    | _ => c) c1
  (filteredItems, c2)

/-- The owner-query-then-fallback fetch of `list` (lines 903-1074): a thrown
owner-query error whose message matches the missing-query patterns falls
back to the default list query; an empty-data response with errors throws a
message matching none of the patterns; every other failure propagates. -/
def listAttempt (c : Cache) (m : String) (filter : Option JSObj) (queryKey : QKey)
    (ownerApi fallbackApi : ListApi) : Except String (List JSObj × Cache) :=
  match ownerApi with
  | .ok res =>
      match res.data with
      | none =>
          if res.errors ≠ [] then .error "returned no data (has errors)"
          else .ok (listFetchCommon c m filter queryKey [])
      | some raw => .ok (listFetchCommon c m filter queryKey raw)
  | .error e =>
      if strIncludes e "not found" || strIncludes e "is not a function" ||
         strIncludes e "is undefined" then
        match fallbackApi with
        | .ok res =>
            match res.data with
            | none =>
                if res.errors ≠ [] then .error "fallback returned no data (has errors)"
                else .ok (listFetchCommon c m filter queryKey [])
            | some raw => .ok (listFetchCommon c m filter queryKey raw)
        | .error e2 => .error e2
      else .error e

/-- `list` (lines 870-1088): serve the cached list when it is a non-empty
array and the key is not invalidated; otherwise fetch (owner query, then
fallback), filter client-side, populate the list key and the item keys; on
total failure invalidate `[model, "filter", JSON.stringify(options.filter)]`
and return an empty list, or rethrow when `throwOnError` is set. -/
def listRun (c : Cache) (m : String) (filter : Option JSObj)
    (forceRefresh throwOnError : Bool) (ownerApi fallbackApi : ListApi) :
    Except String (List JSObj) × Cache :=
  let queryKey := listKeyOf m filter
  let cacheHit := !forceRefresh &&
    (match getQueryData c queryKey with
     | some (.list xs) => decide (0 < xs.length) && !isInvalidated c queryKey
     | _ => false)
  if cacheHit then
    (.ok (asItemArray (getQueryData c queryKey)), c)
  else
    match listAttempt c m filter queryKey ownerApi fallbackApi with
    | .ok r => (.ok r.1, r.2)
    | .error e =>
        let c' := invalidateQueries c (listErrKey m filter)
        if throwOnError then (.error e, c') else (.ok [], c')

-- -------------------------------
-- customList (lines 1564-1715)
-- -------------------------------

/-- A relation id value as a key token: string values become string tokens;
any other value would land as a non-string token. -/
def tokOfVal : JSVal → KeyTok
  | .atom (.astr s) => .str s
  | _ => .nonstr

/-- The key `customList` resolves (lines 1586-1610): relation-scoped when
some argument name ends in `Id` (the first such argument), plain otherwise;
the owner-argument injection only applies to the `userPool` owner-query
configuration, which is outside the modelled runs (`enhancedArgs` equals
`args`). -/
def customKeyOf (m queryName : String) (args : JSObj) : QKey :=
  match args.find? (fun kv => strEndsWith kv.1 "Id") with
  | some rf =>
      [.str m, .str (relationNameOfField rf.1), tokOfVal rf.2,
       .str "query", .str queryName, .str (jsonStringify args)]
  | none => [.str m, .str "query", .str queryName, .str (jsonStringify args)]

/-- `customList` (lines 1564-1715): same cache-hit rule as `list`; a missing
named query throws (fatal); a successful fetch populates the query key and
the item keys (no client filter); on failure the `catch` rebuilds the same
key from `args` and invalidates it, returning an empty list or rethrowing
under `throwOnError`. -/
def customListRun (c : Cache) (m queryName : String) (args : JSObj)
    (forceRefresh throwOnError queryExists : Bool) (api : ListApi) :
    Except String (List JSObj) × Cache :=
  let queryKey := customKeyOf m queryName args
  let cacheHit := !forceRefresh &&
    (match getQueryData c queryKey with
     | some (.list xs) => decide (0 < xs.length) && !isInvalidated c queryKey
     | _ => false)
  if cacheHit then
    (.ok (asItemArray (getQueryData c queryKey)), c)
  else
    let attempt : Except String (List JSObj × Cache) :=
      if !queryExists then .error "Query does not exist."
      else
        match api with
        | .ok res =>
            match res.data with
            | none =>
                if res.errors ≠ [] then .error "returned no data (has errors)"
                else .ok (listFetchCommon c m none queryKey [])
            | some raw => .ok (listFetchCommon c m none queryKey raw)
        | .error e => .error e
    match attempt with
    | .ok r => (.ok r.1, r.2)
    | .error e =>
        let c' := invalidateQueries c queryKey
        if throwOnError then (.error e, c') else (.ok [], c')

-- -------------------------------
-- The collection-watch subscriber (lines 2004-2046)
-- -------------------------------

/-- The item-key writes of the subscriber (lines 2038-2045): each emitted
item with a truthy id is stored under its own item key. -/
def observeWriteItems (m : String) (c : Cache) (items : List JSObj) : Cache :=
  items.foldl (fun c item =>
    match objLookup item "id" with
    | some (.atom (.astr s)) => if s ≠ "" then setQueryData c (itemKey m s) (.record item) else c
    | _ => c) c

/-- One emission of the `observeQuery` collection-watch subscriber (lines
2004-2046): normalize the emitted items (`filter(Boolean)` over an array,
`[]` otherwise); discard a not-yet-synced empty emission while the cached
list is non-empty; skip the write when `areItemArraysEquivalentById` deems
the incoming set equivalent to the cache; otherwise overwrite the list key
and every item key.  (`setIsSynced` and `lastNonEmptyItemsRef` do not touch
the cache and are omitted.) -/
def observeStep (c : Cache) (m : String) (queryKey : QKey)
    (nextItems : Option (List (Option JSObj))) (synced : Bool) : Cache :=
  let safeItems :=
    match nextItems with
    | some xs => xs.filterMap id
    | none => []
  let previousData := getQueryData c queryKey
  let prevLen :=
    match previousData with
    | some (.list xs) => xs.length
    | _ => 0
  if !synced && safeItems.length = 0 && decide (0 < prevLen) then c
  else
    let equivalent :=
      match previousData with
      | some (.record _) => false
      | some (.list xs) => areItemArraysEquivalentById xs safeItems
      | _ => areItemArraysEquivalentById [] safeItems
    if equivalent then c
    else observeWriteItems m (setQueryData c queryKey (.list safeItems)) safeItems

-- -------------------------------
-- Concrete instances used by counterexamples and witnesses
-- -------------------------------

/-- A record `{id: "a"}`. -/
def exRecA : JSObj := [("id", .atom (.astr "a"))]

/-- A record `{id: "b"}`. -/
def exRecB : JSObj := [("id", .atom (.astr "b"))]

/-- A cache in which the query `["M"]` exists but its data is undefined (a
created-but-never-resolved query object). -/
def exCacheAbsent : Cache := ⟨[([.str "M"], none)], []⟩

/-- A cache holding the top-level list `["M"]` with one record and the
record's item key. -/
def exCacheListA : Cache :=
  ⟨[([.str "M"], some (.list [exRecA])), (itemKey "M" "a", some (.record exRecA))], []⟩

/-- The `deleteList` counterexample cache: the top-level `["M"]` list, the
record's item key, and a cached filtered list, all holding `{id: "b"}`. -/
def exCacheDel : Cache :=
  ⟨[([.str "M"], some (.list [exRecB])),
    (itemKey "M" "b", some (.record exRecB)),
    ([.str "M", .str "filter", .str "F"], some (.list [exRecB]))], []⟩

/-- `{id: "a", updatedAt: "T", _version: 1}`. -/
def exItemV1 : JSObj :=
  [("id", .atom (.astr "a")), ("updatedAt", .atom (.astr "T")), ("_version", .atom (.anum 1))]

/-- The same record with only `_version` bumped to 2. -/
def exItemV2 : JSObj :=
  [("id", .atom (.astr "a")), ("updatedAt", .atom (.astr "T")), ("_version", .atom (.anum 2))]

/-- The same record with only the (non-timestamp) `status` field changed. -/
def exItemStatus : JSObj :=
  [("id", .atom (.astr "a")), ("updatedAt", .atom (.astr "T")),
   ("_version", .atom (.anum 1)), ("status", .atom (.astr "done"))]

/-- A record like `exItemV1` but carrying `status` (so only `status` differs
from `exItemStatus`). -/
def exItemStatus0 : JSObj :=
  [("id", .atom (.astr "a")), ("updatedAt", .atom (.astr "T")),
   ("_version", .atom (.anum 1)), ("status", .atom (.astr "open"))]

/-- A cache with `["M"]` holding `[exItemV1]`. -/
def exCacheObs : Cache := ⟨[([.str "M"], some (.list [exItemV1]))], []⟩

/-- A cache with `["M"]` holding `[exItemStatus0]`. -/
def exCacheObsStatus : Cache := ⟨[([.str "M"], some (.list [exItemStatus0]))], []⟩

/-- The claim's example filter: `{score: {between: [10, 20]}, status: {eq: "open"}}`. -/
def exFilterC8 : JSObj :=
  [("score", .obj [("between", .larr [.anum 10, .anum 20])]),
   ("status", .obj [("eq", .la (.astr "open"))])]

/-- Items with scores 15, 25, 10, 20 and statuses open/open/closed/open. -/
def exItemsC8 : List (Option JSObj) :=
  [some [("id", .atom (.astr "1")), ("score", .atom (.anum 15)), ("status", .atom (.astr "open"))],
   some [("id", .atom (.astr "2")), ("score", .atom (.anum 25)), ("status", .atom (.astr "open"))],
   some [("id", .atom (.astr "3")), ("score", .atom (.anum 10)), ("status", .atom (.astr "closed"))],
   some [("id", .atom (.astr "4")), ("score", .atom (.anum 20)), ("status", .atom (.astr "open"))]]

/-- Two filters with the same key-value pairs enumerated in different
orders. -/
def exFilterAB : JSObj := [("a", .atom (.anum 1)), ("b", .atom (.anum 2))]

/-- See `exFilterAB`. -/
def exFilterBA : JSObj := [("b", .atom (.anum 2)), ("a", .atom (.anum 1))]

-- -------------------------------
-- Lemmas: cache primitives
-- -------------------------------

theorem lookupEntry_setEntry (es : List (QKey × Option CacheVal)) (k : QKey)
    (v : Option CacheVal) (k' : QKey) :
    lookupEntry (setEntry es k v) k' = if k = k' then some v else lookupEntry es k' := by
  induction es with
  | nil =>
      by_cases h : k = k' <;> simp [setEntry, lookupEntry, h]
  | cons e rest ih =>
      obtain ⟨k0, v0⟩ := e
      by_cases h0 : k0 = k
      · subst h0
        by_cases h : k0 = k' <;> simp [setEntry, lookupEntry, h]
      · by_cases h : k0 = k'
        · subst h
          have : ¬ k = k0 := fun hh => h0 hh.symm
          simp [setEntry, lookupEntry, h0, this]
        · simp [setEntry, lookupEntry, h0, h, ih]

theorem getQueryData_set_self (c : Cache) (k : QKey) (v : CacheVal) :
    getQueryData (setQueryData c k v) k = some v := by
  simp [getQueryData, setQueryData, lookupEntry_setEntry]

theorem getQueryData_set_ne (c : Cache) (k : QKey) (v : CacheVal) (k' : QKey)
    (h : k ≠ k') : getQueryData (setQueryData c k v) k' = getQueryData c k' := by
  simp [getQueryData, setQueryData, lookupEntry_setEntry, h]

theorem getQueryData_setOpt_ne (c : Cache) (k : QKey) (v : Option CacheVal) (k' : QKey)
    (h : k ≠ k') : getQueryData (setQueryDataOpt c k v) k' = getQueryData c k' := by
  cases v with
  | none => rfl
  | some v => exact getQueryData_set_ne c k v k' h

theorem getQueryData_invalidate (c : Cache) (k0 k : QKey) :
    getQueryData (invalidateQueries c k0) k = getQueryData c k := rfl

-- -------------------------------
-- Lemmas: rollback restores snapshotted values
-- -------------------------------

theorem rollback_not_mem (snap : Snapshot) :
    ∀ (c : Cache) (k : QKey), k ∉ snap.map Prod.fst →
    getQueryData (rollbackCache c snap) k = getQueryData c k := by
  induction snap with
  | nil => intro c k _; rfl
  | cons e rest ih =>
      intro c k hk
      obtain ⟨k0, v0⟩ := e
      simp only [List.map_cons, List.mem_cons, not_or] at hk
      have h0 : k0 ≠ k := fun h => hk.1 h.symm
      calc getQueryData (rollbackCache (setQueryDataOpt c k0 v0) rest) k
          = getQueryData (setQueryDataOpt c k0 v0) k := ih _ k hk.2
        _ = getQueryData c k := getQueryData_setOpt_ne c k0 v0 k h0

theorem rollback_mem (snap : Snapshot) :
    ∀ (c : Cache) (k : QKey) (v : CacheVal),
    (snap.map Prod.fst).Nodup → (k, some v) ∈ snap →
    getQueryData (rollbackCache c snap) k = some v := by
  induction snap with
  | nil => intro c k v _ h; cases h
  | cons e rest ih =>
      intro c k v hnd hmem
      obtain ⟨k0, v0⟩ := e
      simp only [List.map_cons, List.nodup_cons] at hnd
      rcases List.mem_cons.mp hmem with heq | htail
      · injection heq with hk hv
        subst hk
        have hnot : k ∉ rest.map Prod.fst := hnd.1
        calc getQueryData (rollbackCache (setQueryDataOpt c k v0) rest) k
            = getQueryData (setQueryDataOpt c k v0) k := rollback_not_mem rest _ k hnot
          _ = some v := by rw [← hv]; exact getQueryData_set_self c k v
      · exact ih _ k v hnd.2 htail

-- -------------------------------
-- The snapshot/optimistic-write fold framework
-- -------------------------------

theorem notin_snap_append {snap : Snapshot} {qk q : QKey} {d : Option CacheVal}
    (h1 : q ∉ snap.map Prod.fst) (h2 : q ≠ qk) :
    q ∉ (snap ++ [(qk, d)]).map Prod.fst := by
  simp only [List.map_append, List.map_cons, List.map_nil, List.mem_append,
    List.mem_cons, List.not_mem_nil, or_false]
  rintro (h | h)
  · exact h1 h
  · exact h2 h

theorem nodup_snap_append {snap : Snapshot} {qk : QKey} {d : Option CacheVal}
    (h1 : (snap.map Prod.fst).Nodup) (h2 : qk ∉ snap.map Prod.fst) :
    ((snap ++ [(qk, d)]).map Prod.fst).Nodup := by
  simp only [List.map_append, List.map_cons, List.map_nil]
  refine List.Nodup.append h1 (List.nodup_singleton qk) ?_
  intro a ha hb
  simp only [List.mem_singleton] at hb
  subst hb
  exact h2 ha

/-- The contract of one per-key optimistic step: it only rewrites its own
key's data, it appends at most its own snapshot entry (recording the pre-step
value), and whenever the pre-step value at its key was defined and truthy it
either records exactly that value in the snapshot or leaves the value in
place. -/
def StepOK (step : Snapshot × Cache → QKey → Snapshot × Cache) : Prop :=
  ∀ snap c qk,
    (∀ k, k ≠ qk → getQueryData (step (snap, c) qk).2 k = getQueryData c k) ∧
    ((step (snap, c) qk).1 = snap ∨
     (step (snap, c) qk).1 = snap ++ [(qk, getQueryData c qk)]) ∧
    (∀ v, getQueryData c qk = some v → v ≠ .vnull →
      ((step (snap, c) qk).1 = snap ++ [(qk, some v)] ∨
       getQueryData (step (snap, c) qk).2 qk = some v))

/-- The restoration invariant carried through an optimistic fold: every key
whose original value was defined and non-null either still holds that value
(and is outside the snapshot), or is recorded in the snapshot with exactly
that value. -/
def RestoreINV (c0 : Cache) (snap : Snapshot) (c : Cache) : Prop :=
  ∀ k v, getQueryData c0 k = some v → v ≠ .vnull →
    ((getQueryData c k = some v ∧ k ∉ snap.map Prod.fst) ∨ (k, some v) ∈ snap)

theorem foldSteps_INV {step : Snapshot × Cache → QKey → Snapshot × Cache}
    (hstep : StepOK step) :
    ∀ (keys : List QKey) (snap : Snapshot) (c c0 : Cache),
    keys.Nodup → (∀ qk ∈ keys, qk ∉ snap.map Prod.fst) →
    (snap.map Prod.fst).Nodup → RestoreINV c0 snap c →
    ((keys.foldl step (snap, c)).1.map Prod.fst).Nodup ∧
      RestoreINV c0 (keys.foldl step (snap, c)).1 (keys.foldl step (snap, c)).2 := by
  intro keys
  induction keys with
  | nil => intro snap c c0 _ _ hsnd hinv; exact ⟨hsnd, hinv⟩
  | cons qk rest ih =>
      intro snap c c0 hnd hdisj hsnd hinv
      simp only [List.nodup_cons] at hnd
      obtain ⟨h1, h2, h3⟩ := hstep snap c qk
      have hqk_notin : qk ∉ snap.map Prod.fst := hdisj qk (List.mem_cons_self qk rest)
      have hsnd' : ((step (snap, c) qk).1.map Prod.fst).Nodup := by
        rcases h2 with h | h <;> rw [h]
        · exact hsnd
        · exact nodup_snap_append hsnd hqk_notin
      have hdisj' : ∀ q ∈ rest, q ∉ (step (snap, c) qk).1.map Prod.fst := by
        intro q hq
        have hq_ne : q ≠ qk := fun h => hnd.1 (h ▸ hq)
        have hq_old : q ∉ snap.map Prod.fst := hdisj q (List.mem_cons_of_mem _ hq)
        rcases h2 with h | h <;> rw [h]
        · exact hq_old
        · exact notin_snap_append hq_old hq_ne
      have hinv' : RestoreINV c0 (step (snap, c) qk).1 (step (snap, c) qk).2 := by
        intro k v hk hv
        by_cases hkqk : k = qk
        · subst hkqk
          rcases hinv k v hk hv with ⟨hval, _⟩ | hmem
          · rcases h3 v hval hv with hsn | hkeep
            · right
              rw [hsn]
              exact List.mem_append_right _ (List.mem_singleton.mpr rfl)
            · rcases h2 with h | h
              · exact Or.inl ⟨hkeep, by rw [h]; exact hqk_notin⟩
              · right
                rw [h, hval]
                exact List.mem_append_right _ (List.mem_singleton.mpr rfl)
          · exact absurd (List.mem_map_of_mem Prod.fst hmem) hqk_notin
        · rcases hinv k v hk hv with ⟨hval, hnm⟩ | hmem
          · refine Or.inl ⟨(h1 k hkqk).trans hval, ?_⟩
            rcases h2 with h | h <;> rw [h]
            · exact hnm
            · exact notin_snap_append hnm hkqk
          · right
            rcases h2 with h | h <;> rw [h]
            · exact hmem
            · exact List.mem_append_left _ hmem
      have hres := ih (step (snap, c) qk).1 (step (snap, c) qk).2 c0 hnd.2 hdisj' hsnd' hinv'
      simpa using hres

/-- Restoration from an invariant-satisfying snapshot: one rollback pass
restores every key whose original value was defined and non-null. -/
theorem rollback_restores_of_INV {c0 : Cache} {snap : Snapshot} {c : Cache}
    (hsnd : (snap.map Prod.fst).Nodup) (hinv : RestoreINV c0 snap c) :
    ∀ k v, getQueryData c0 k = some v → v ≠ .vnull →
    getQueryData (rollbackCache c snap) k = some v := by
  intro k v hk hv
  rcases hinv k v hk hv with ⟨hval, hnm⟩ | hmem
  · exact (rollback_not_mem snap c k hnm).trans hval
  · exact rollback_mem snap c k v hsnd hmem

/-- The invariant also survives a rollback pass (used for the double-rollback
paths, where the `catch` block rolls back a second time). -/
theorem RestoreINV_rollback {c0 : Cache} {snap : Snapshot} {c : Cache}
    (hinv : RestoreINV c0 snap c) :
    RestoreINV c0 snap (rollbackCache c snap) := by
  intro k v hk hv
  rcases hinv k v hk hv with ⟨hval, hnm⟩ | hmem
  · exact Or.inl ⟨(rollback_not_mem snap c k hnm).trans hval, hnm⟩
  · exact Or.inr hmem

theorem truthy_of_ne_vnull {v : CacheVal} (h : v ≠ .vnull) : v.truthy = true := by
  cases v with
  | vnull => exact absurd rfl h
  | record r => rfl
  | list xs => rfl

theorem snapIfTruthy_some {snap : Snapshot} {qk : QKey} {v : CacheVal} (h : v ≠ .vnull) :
    snapIfTruthy snap qk (some v) = snap ++ [(qk, some v)] := by
  simp [snapIfTruthy, truthy_of_ne_vnull h]

/-- The step contract for a snap-if-truthy write branch. -/
theorem write_branch_ok (snap : Snapshot) (c : Cache) (qk : QKey) (w : CacheVal) :
    (∀ k, k ≠ qk →
      getQueryData (snapIfTruthy snap qk (getQueryData c qk), setQueryData c qk w).2 k =
        getQueryData c k) ∧
    ((snapIfTruthy snap qk (getQueryData c qk), setQueryData c qk w).1 = snap ∨
     (snapIfTruthy snap qk (getQueryData c qk), setQueryData c qk w).1 =
       snap ++ [(qk, getQueryData c qk)]) ∧
    (∀ v, getQueryData c qk = some v → v ≠ .vnull →
      ((snapIfTruthy snap qk (getQueryData c qk), setQueryData c qk w).1 =
         snap ++ [(qk, some v)] ∨
       getQueryData (snapIfTruthy snap qk (getQueryData c qk), setQueryData c qk w).2 qk =
         some v)) := by
  refine ⟨fun k hk => getQueryData_set_ne c qk w k (Ne.symm hk), ?_, ?_⟩
  · by_cases ht : ((getQueryData c qk).map CacheVal.truthy).getD false = true
    · right; simp [snapIfTruthy, ht]
    · left; simp [snapIfTruthy, ht]
  · intro v hval hv
    left
    rw [hval, snapIfTruthy_some hv]

/-- The step contract for an untouched branch. -/
theorem identity_branch_ok (snap : Snapshot) (c : Cache) (qk : QKey) :
    (∀ k, k ≠ qk → getQueryData (snap, c).2 k = getQueryData c k) ∧
    ((snap, c).1 = snap ∨ (snap, c).1 = snap ++ [(qk, getQueryData c qk)]) ∧
    (∀ v, getQueryData c qk = some v → v ≠ .vnull →
      ((snap, c).1 = snap ++ [(qk, some v)] ∨ getQueryData (snap, c).2 qk = some v)) :=
  ⟨fun _ _ => rfl, Or.inl rfl, fun _ hval _ => Or.inr hval⟩

/-- The step contract for a snap-always write branch. -/
theorem snapalways_branch_ok (snap : Snapshot) (c : Cache) (qk : QKey) (w : CacheVal) :
    (∀ k, k ≠ qk →
      getQueryData (snap ++ [(qk, getQueryData c qk)], setQueryData c qk w).2 k =
        getQueryData c k) ∧
    ((snap ++ [(qk, getQueryData c qk)], setQueryData c qk w).1 = snap ∨
     (snap ++ [(qk, getQueryData c qk)], setQueryData c qk w).1 =
       snap ++ [(qk, getQueryData c qk)]) ∧
    (∀ v, getQueryData c qk = some v → v ≠ .vnull →
      ((snap ++ [(qk, getQueryData c qk)], setQueryData c qk w).1 =
         snap ++ [(qk, some v)] ∨
       getQueryData (snap ++ [(qk, getQueryData c qk)], setQueryData c qk w).2 qk =
         some v)) := by
  refine ⟨fun k hk => getQueryData_set_ne c qk w k (Ne.symm hk), Or.inr rfl, ?_⟩
  intro v hval _
  left
  rw [hval]

theorem stepOK_createApplyKey (newItem : JSObj) : StepOK (createApplyKey newItem) := by
  intro snap c qk
  by_cases h1 : isRelationalKey qk = true
  · by_cases h2 : belongsToRelation newItem qk = true
    · have he : createApplyKey newItem (snap, c) qk =
          (snapIfTruthy snap qk (getQueryData c qk),
           setQueryData c qk (.list (asItemArray (getQueryData c qk) ++ [newItem]))) := by
        simp [createApplyKey, h1, h2]
      rw [he]
      exact write_branch_ok snap c qk _
    · have he : createApplyKey newItem (snap, c) qk = (snap, c) := by
        simp [createApplyKey, h1, h2]
      rw [he]
      exact identity_branch_ok snap c qk
  · by_cases h3 : (decide (qk.length < 3) && (qk.getD 1 .undef != .str "currentId")) = true
    · have he : createApplyKey newItem (snap, c) qk =
          (snapIfTruthy snap qk (getQueryData c qk),
           setQueryData c qk (.list (asItemArray (getQueryData c qk) ++ [newItem]))) := by
        simp only [createApplyKey]
        rw [if_neg h1, if_pos h3]
      rw [he]
      exact write_branch_ok snap c qk _
    · have he : createApplyKey newItem (snap, c) qk = (snap, c) := by
        simp only [createApplyKey]
        rw [if_neg h1, if_neg h3]
      rw [he]
      exact identity_branch_ok snap c qk

theorem stepOK_deleteApplyKey (m id : String) : StepOK (deleteApplyKey m id) := by
  intro snap c qk
  by_cases h1 : isItemKeyForModel m qk = true
  · have he : deleteApplyKey m id (snap, c) qk = (snap, c) := by
      simp [deleteApplyKey, h1]
    rw [he]
    exact identity_branch_ok snap c qk
  · have he : deleteApplyKey m id (snap, c) qk =
        (snapIfTruthy snap qk (getQueryData c qk),
         setQueryData c qk (.list ((asItemArray (getQueryData c qk)).filter
           (fun item => !hasId item id)))) := by
      simp [deleteApplyKey, h1]
    rw [he]
    exact write_branch_ok snap c qk _

theorem stepOK_optimisticUpdateKey (m itemId : String) (od ud : JSObj) :
    StepOK (optimisticUpdateKey m itemId od ud) := by
  intro snap c qk
  by_cases h1 : isItemKeyForModel m qk = true
  · have he : optimisticUpdateKey m itemId od ud (snap, c) qk = (snap, c) := by
      simp [optimisticUpdateKey, h1]
    rw [he]
    exact identity_branch_ok snap c qk
  · have he : optimisticUpdateKey m itemId od ud (snap, c) qk =
        (snap ++ [(qk, getQueryData c qk)], setQueryData c qk
          (.list (if (asItemArray (getQueryData c qk)).any (fun item => hasId item itemId)
            then (asItemArray (getQueryData c qk)).map
              (fun item => if hasId item itemId then objMerge item ud else item)
            else if qk.length = 1 then asItemArray (getQueryData c qk) ++ [od]
            else asItemArray (getQueryData c qk)))) := by
      simp [optimisticUpdateKey, h1]
    rw [he]
    exact snapalways_branch_ok snap c qk _

-- -------------------------------
-- The shared item-key-plus-fold restoration lemma
-- -------------------------------

theorem isItemKey_itemKey (m id : String) : isItemKeyForModel m (itemKey m id) = true := by
  simp [isItemKeyForModel, itemKey]

theorem mem_related_ne_itemKey {m : String} {c : Cache} {qk : QKey}
    (h : qk ∈ findRelatedQueryKeys m c) (id : String) : qk ≠ itemKey m id := by
  intro he
  subst he
  unfold findRelatedQueryKeys at h
  rw [List.mem_filter] at h
  have h2 := h.2
  rw [isItemKey_itemKey] at h2
  simp at h2

theorem nodup_findRelatedQueryKeys {m : String} {c : Cache} (hwf : c.wf) :
    (findRelatedQueryKeys m c).Nodup :=
  List.Nodup.filter _ hwf

/-- An optimistic phase of the shape shared by `create`, `update`/`upsert` and
`delete` — snapshot and overwrite the item key, then fold an OK step over the
related keys — establishes the restoration invariant with a nodup snapshot. -/
theorem itemfold_INV {step : Snapshot × Cache → QKey → Snapshot × Cache}
    (hstep : StepOK step) (c : Cache) (m id : String) (w : CacheVal) (hwf : c.wf) :
    ((((findRelatedQueryKeys m c).foldl step
        ([(itemKey m id, getQueryData c (itemKey m id))],
         setQueryData c (itemKey m id) w)).1.map Prod.fst).Nodup ∧
      RestoreINV c
        ((findRelatedQueryKeys m c).foldl step
          ([(itemKey m id, getQueryData c (itemKey m id))],
           setQueryData c (itemKey m id) w)).1
        ((findRelatedQueryKeys m c).foldl step
          ([(itemKey m id, getQueryData c (itemKey m id))],
           setQueryData c (itemKey m id) w)).2) := by
  apply foldSteps_INV hstep
  · exact nodup_findRelatedQueryKeys hwf
  · intro qk hqk
    simp only [List.map_cons, List.map_nil, List.mem_singleton]
    exact mem_related_ne_itemKey hqk id
  · exact List.nodup_singleton _
  · intro k v hk hv
    by_cases hkey : k = itemKey m id
    · subst hkey
      right
      rw [← hk]
      exact List.mem_singleton.mpr rfl
    · left
      refine ⟨?_, ?_⟩
      · rw [getQueryData_set_ne c _ w k (fun h => hkey h.symm)]
        exact hk
      · simp only [List.map_cons, List.map_nil, List.mem_singleton]
        exact hkey

/-- Rolling back once from such a phase restores every defined non-null
pre-mutation value. -/
theorem itemfold_rollback_restores {step : Snapshot × Cache → QKey → Snapshot × Cache}
    (hstep : StepOK step) (c : Cache) (m id : String) (w : CacheVal) (hwf : c.wf)
    (k : QKey) (v : CacheVal) (hk : getQueryData c k = some v) (hv : v ≠ .vnull) :
    getQueryData
      (rollbackCache
        ((findRelatedQueryKeys m c).foldl step
          ([(itemKey m id, getQueryData c (itemKey m id))],
           setQueryData c (itemKey m id) w)).2
        ((findRelatedQueryKeys m c).foldl step
          ([(itemKey m id, getQueryData c (itemKey m id))],
           setQueryData c (itemKey m id) w)).1) k = some v := by
  obtain ⟨hsnd, hinv⟩ := itemfold_INV hstep c m id w hwf
  exact rollback_restores_of_INV hsnd hinv k v hk hv

/-- Rolling back twice (failure path with the extra `catch` rollback) also
restores every defined non-null pre-mutation value. -/
theorem itemfold_rollback2_restores {step : Snapshot × Cache → QKey → Snapshot × Cache}
    (hstep : StepOK step) (c : Cache) (m id : String) (w : CacheVal) (hwf : c.wf)
    (k : QKey) (v : CacheVal) (hk : getQueryData c k = some v) (hv : v ≠ .vnull) :
    getQueryData
      (rollbackCache
        (rollbackCache
          ((findRelatedQueryKeys m c).foldl step
            ([(itemKey m id, getQueryData c (itemKey m id))],
             setQueryData c (itemKey m id) w)).2
          ((findRelatedQueryKeys m c).foldl step
            ([(itemKey m id, getQueryData c (itemKey m id))],
             setQueryData c (itemKey m id) w)).1)
        ((findRelatedQueryKeys m c).foldl step
          ([(itemKey m id, getQueryData c (itemKey m id))],
           setQueryData c (itemKey m id) w)).1) k = some v := by
  obtain ⟨hsnd, hinv⟩ := itemfold_INV hstep c m id w hwf
  exact rollback_restores_of_INV hsnd (RestoreINV_rollback hinv) k v hk hv

-- -------------------------------
-- Per-mutation failure lemmas
-- -------------------------------

theorem objLookup_filter_ne_owner (o : JSObj) (k : String) (hk : k ≠ "owner") :
    objLookup (o.filter (fun kv => kv.1 ≠ "owner")) k = objLookup o k := by
  induction o with
  | nil => rfl
  | cons kv rest ih =>
      obtain ⟨k0, v0⟩ := kv
      by_cases h0 : k0 = "owner"
      · subst h0
        have h1 : List.filter (fun kv => decide (kv.1 ≠ "owner")) (("owner", v0) :: rest) =
            List.filter (fun kv => decide (kv.1 ≠ "owner")) rest := by
          simp [List.filter_cons]
        have hne : ¬ (("owner" : String) = k) := fun h => hk h.symm
        simp only [ne_eq] at h1 ⊢
        rw [h1, ih]
        simp [objLookup, hne]
      · have h1 : List.filter (fun kv => decide (kv.1 ≠ "owner")) ((k0, v0) :: rest) =
            (k0, v0) :: List.filter (fun kv => decide (kv.1 ≠ "owner")) rest := by
          simp [List.filter_cons, h0]
        simp only [ne_eq] at h1 ⊢
        rw [h1]
        by_cases hk0 : k0 = k
        · simp [objLookup, hk0]
        · simp only [objLookup, hk0, if_false, ih]

/-- `create` on a failing transport call restores every key whose
pre-mutation value was defined and non-null. -/
theorem createRun_fail_restores (c : Cache) (m : String) (data : JSObj) (uuid : String)
    (api : ApiRes) (hwf : c.wf)
    (hfail : (match api with | .error _ => True | .ok r => r.data = none))
    (k : QKey) (v : CacheVal) (hk : getQueryData c k = some v) (hv : v ≠ .vnull) :
    getQueryData (createRun c m data uuid api).2 k = some v := by
  cases api with
  | error e =>
      exact itemfold_rollback_restores (stepOK_createApplyKey (createPrepared data uuid))
        c m (createPreparedId data uuid) (.record (createPrepared data uuid)) hwf k v hk hv
  | ok res =>
      obtain ⟨d, errs⟩ := res
      cases d with
      | some it => exact absurd hfail (by simp)
      | none =>
          exact itemfold_rollback2_restores (stepOK_createApplyKey (createPrepared data uuid))
            c m (createPreparedId data uuid) (.record (createPrepared data uuid)) hwf k v hk hv

/-- `performOptimisticUpdate` reduced on a validated id. -/
theorem performOptimisticUpdate_eq (c : Cache) (m : String) (keys : List QKey)
    (itemId : String) (ud : JSObj)
    (h : objLookup ud "id" = some (.atom (.astr itemId))) (hne : itemId ≠ "") :
    performOptimisticUpdate c m keys itemId ud =
      keys.foldl (optimisticUpdateKey m itemId
        (match getQueryData c (itemKey m itemId) with
         | some (.record r) => objMerge r ud
         | _ => ud) ud)
        ([(itemKey m itemId, getQueryData c (itemKey m itemId))],
         setQueryData c (itemKey m itemId) (.record
           (match getQueryData c (itemKey m itemId) with
            | some (.record r) => objMerge r ud
            | _ => ud))) := by
  unfold performOptimisticUpdate
  rw [h]
  simp [hne]

/-- `update` on a failing transport call restores every key whose
pre-mutation value was defined and non-null. -/
theorem updateRun_fail_restores (c : Cache) (m : String) (data : JSObj)
    (api : ApiRes) (hwf : c.wf)
    (hfail : (match api with | .error _ => True | .ok r => r.data = none))
    (k : QKey) (v : CacheVal) (hk : getQueryData c k = some v) (hv : v ≠ .vnull) :
    getQueryData (updateRun c m data api).2 k = some v := by
  cases hlook : objLookup data "id" with
  | none => simpa [updateRun, hlook] using hk
  | some val =>
      cases val with
      | arr xs => simpa [updateRun, hlook] using hk
      | obj fs => simpa [updateRun, hlook] using hk
      | atom a =>
          cases a with
          | anull => simpa [updateRun, hlook] using hk
          | abool b => simpa [updateRun, hlook] using hk
          | anum n => simpa [updateRun, hlook] using hk
          | astr id =>
              by_cases hid : id = ""
              · subst hid; simpa [updateRun, hlook] using hk
              · have hlook' : objLookup (data.filter (fun kv => kv.1 ≠ "owner")) "id" =
                    some (.atom (.astr id)) := by
                  rw [objLookup_filter_ne_owner data "id" (by decide)]
                  exact hlook
                simp only [updateRun, hlook]
                rw [if_neg hid]
                simp only [performOptimisticUpdate_eq c m _ id _ hlook' hid]
                cases api with
                | error e =>
                    exact itemfold_rollback_restores
                      (stepOK_optimisticUpdateKey m id _ _) c m id _ hwf k v hk hv
                | ok res =>
                    obtain ⟨d, errs⟩ := res
                    cases d with
                    | some it => exact absurd hfail (by simp)
                    | none =>
                        exact itemfold_rollback2_restores
                          (stepOK_optimisticUpdateKey m id _ _) c m id _ hwf k v hk hv

/-- `delete` on a failing transport call (thrown, or a response carrying
errors) restores every key whose pre-mutation value was defined and
non-null. -/
theorem deleteRun_fail_restores (c : Cache) (m id : String) (api : ApiRes) (hwf : c.wf)
    (hfail : (match api with | .error _ => True | .ok r => r.errors ≠ []))
    (k : QKey) (v : CacheVal) (hk : getQueryData c k = some v) (hv : v ≠ .vnull) :
    getQueryData (deleteRun c m id api).2 k = some v := by
  by_cases hid : id = ""
  · simpa [deleteRun, hid] using hk
  · simp only [deleteRun]
    rw [if_neg hid]
    cases api with
    | error e =>
        exact itemfold_rollback_restores (stepOK_deleteApplyKey m id) c m id .vnull hwf k v hk hv
    | ok res =>
        have herr : res.errors ≠ [] := hfail
        simp only [ne_eq, herr, not_false_eq_true, if_true]
        exact itemfold_rollback_restores (stepOK_deleteApplyKey m id) c m id .vnull hwf k v hk hv

/-- `get` served from a consistent cached record is pure: it returns the
record and leaves the cache untouched. -/
theorem getRun_cacheHit (c : Cache) (m id : String) (api : GetApi) (r : JSObj)
    (h : getQueryData c (itemKey m id) = some (.record r)) (hid : hasId r id = true) :
    getRun c m id false api = (some r, c) := by
  simp [getRun, h, hid]

/-- `upsert` whose existence check is served by a consistent cached record,
on a failing transport call, restores every key whose pre-mutation value was
defined and non-null. -/
theorem upsertRun_fail_restores (c : Cache) (m : String) (data : JSObj)
    (getApi : GetApi) (updateApi createApi : ApiRes) (hwf : c.wf)
    (id : String) (r : JSObj)
    (hlook : objLookup data "id" = some (.atom (.astr id))) (hid : id ≠ "")
    (hcache : getQueryData c (itemKey m id) = some (.record r)) (hrid : hasId r id = true)
    (hfail : (match updateApi with | .error _ => True | .ok res => res.data = none))
    (k : QKey) (v : CacheVal) (hk : getQueryData c k = some v) (hv : v ≠ .vnull) :
    getQueryData (upsertRun c m data getApi updateApi createApi).2 k = some v := by
  have hlook' : objLookup (data.filter (fun kv => kv.1 ≠ "owner")) "id" =
      some (.atom (.astr id)) := by
    rw [objLookup_filter_ne_owner data "id" (by decide)]
    exact hlook
  simp only [upsertRun, hlook]
  rw [if_neg hid]
  rw [getRun_cacheHit c m id getApi r hcache hrid]
  simp only [performOptimisticUpdate_eq c m _ id _ hlook' hid]
  cases updateApi with
  | error e =>
      exact itemfold_rollback_restores
        (stepOK_optimisticUpdateKey m id _ _) c m id _ hwf k v hk hv
  | ok res =>
      obtain ⟨d, errs⟩ := res
      cases d with
      | some it => exact absurd hfail (by simp)
      | none =>
          exact itemfold_rollback2_restores
            (stepOK_optimisticUpdateKey m id _ _) c m id _ hwf k v hk hv

-- -------------------------------
-- Filter semantics: code vs. spec agreement
-- -------------------------------

theorem jsEqAtom_eq (o : Option JSVal) (a : JSAtom) : jsEqAtom o a = (o == some (.atom a)) := by
  cases o with
  | none => rfl
  | some v =>
      cases v with
      | atom b => by_cases h : b = a <;> simp [jsEqAtom, h]
      | arr xs => simp [jsEqAtom]
      | obj fs => simp [jsEqAtom]

/-- On every spec-recognized single-operator clause, the source's `if`-chain
computes exactly the spec's clause semantics. -/
theorem clause_agreement (o : Option JSVal) (v : JSVal) (h : wfClause v = true) :
    evalFilterClause o v = specClauseHolds o v := by
  unfold wfClause at h
  split at h
  · rename_i a
    exact jsEqAtom_eq o a
  · rename_i a
    show jsEqAtom o a = (o == some (.atom a))
    exact jsEqAtom_eq o a
  · rename_i a
    show (!(jsEqAtom o a)) = (!(o == some (.atom a)))
    rw [jsEqAtom_eq]
  · rename_i b
    rcases o with _ | v
    · rfl
    · rcases v with a | xs | fs
      · rcases a with _ | b' | n | s <;> rfl
      · rfl
      · rfl
  · rename_i t
    rcases o with _ | v
    · rfl
    · rcases v with a | xs | fs
      · rcases a with _ | b' | n | s <;> rfl
      · rfl
      · rfl
  · rename_i b
    rcases o with _ | v
    · rfl
    · rcases v with a | xs | fs
      · rcases a with _ | b' | n | s <;> rfl
      · rfl
      · rfl
  · rename_i t
    rcases o with _ | v
    · rfl
    · rcases v with a | xs | fs
      · rcases a with _ | b' | n | s <;> rfl
      · rfl
      · rfl
  · rfl
  · rename_i a b
    rcases o with _ | v
    · rfl
    · rcases v with a' | xs | fs
      · rcases a' with _ | b' | n | s <;> rfl
      · rfl
      · rfl
  · rename_i a b
    rcases o with _ | v
    · rfl
    · rcases v with a' | xs | fs
      · rcases a' with _ | b' | n | s <;> rfl
      · rfl
      · rfl
  · simp at h

theorem list_all_congr {α : Type} (l : List α) (p q : α → Bool)
    (h : ∀ x ∈ l, p x = q x) : l.all p = l.all q := by
  induction l with
  | nil => rfl
  | cons x xs ih =>
      simp only [List.all_cons, h x (List.mem_cons_self x xs),
        ih (fun y hy => h y (List.mem_cons_of_mem x hy))]

/-- The client-side filter of `list` keeps exactly the items satisfying the
spec's per-clause semantics under logical AND, for well-formed filters. -/
theorem applyClientFilter_spec (f : JSObj) (items : List JSObj)
    (hwf : ∀ kv ∈ f, wfClause kv.2 = true) :
    applyClientFilter (some f) items =
      items.filter (fun item => specFilterHolds f item) := by
  unfold applyClientFilter
  apply List.filter_congr
  intro item _
  unfold specFilterHolds
  exact list_all_congr f _ _ (fun kv hkv =>
    clause_agreement (objLookup item kv.1) kv.2 (hwf kv hkv))

-- -------------------------------
-- Observe-subscriber and cache-hit lemmas
-- -------------------------------

theorem areEquiv_nonempty_empty (xs : List JSObj) (h : xs ≠ []) :
    areItemArraysEquivalentById xs [] = false := by
  unfold areItemArraysEquivalentById
  have hlen : xs.length ≠ 0 := by
    intro hl
    exact h (List.length_eq_zero.mp hl)
  simp [hlen]

theorem observeStep_empty_unsynced (c : Cache) (m : String) (qk : QKey) (xs : List JSObj)
    (hc : getQueryData c qk = some (.list xs)) (hne : xs ≠ []) :
    observeStep c m qk (some []) false = c := by
  have hlen : 0 < xs.length := List.length_pos.mpr hne
  simp [observeStep, hc, hlen]

theorem observeStep_empty_synced (c : Cache) (m : String) (qk : QKey) (xs : List JSObj)
    (hc : getQueryData c qk = some (.list xs)) (hne : xs ≠ []) :
    getQueryData (observeStep c m qk (some []) true) qk = some (.list []) := by
  have heq : areItemArraysEquivalentById xs [] = false := areEquiv_nonempty_empty xs hne
  simp only [observeStep, List.filterMap_nil, hc, heq]
  simp [observeWriteItems, getQueryData_set_self]

theorem listRun_cacheHit (c : Cache) (m : String) (filter : Option JSObj)
    (th : Bool) (oa fa : ListApi) (xs : List JSObj)
    (h : getQueryData c (listKeyOf m filter) = some (.list xs))
    (hne : 0 < xs.length)
    (hinv : isInvalidated c (listKeyOf m filter) = false) :
    listRun c m filter false th oa fa = (.ok xs, c) := by
  simp [listRun, h, hinv, hne, asItemArray]

theorem listRun_emptyCache_fetches (c : Cache) (m : String) (filter : Option JSObj)
    (th : Bool) (oa fa : ListApi)
    (h : getQueryData c (listKeyOf m filter) = some (.list [])) :
    listRun c m filter false th oa fa = listRun c m filter true th oa fa := by
  simp [listRun, h]

theorem customListRun_cacheHit (c : Cache) (m qn : String) (args : JSObj)
    (th qe : Bool) (api : ListApi) (xs : List JSObj)
    (h : getQueryData c (customKeyOf m qn args) = some (.list xs))
    (hne : 0 < xs.length)
    (hinv : isInvalidated c (customKeyOf m qn args) = false) :
    customListRun c m qn args false th qe api = (.ok xs, c) := by
  simp [customListRun, h, hinv, hne, asItemArray]

theorem customListRun_emptyCache_fetches (c : Cache) (m qn : String) (args : JSObj)
    (th qe : Bool) (api : ListApi)
    (h : getQueryData c (customKeyOf m qn args) = some (.list [])) :
    customListRun c m qn args false th qe api = customListRun c m qn args true th qe api := by
  simp [customListRun, h]

theorem createRun_emptyData_null (c : Cache) (m : String) (data : JSObj) (uuid : String)
    (errs : List String) :
    (createRun c m data uuid (.ok ⟨none, errs⟩)).1 = none := rfl

theorem createInner_emptyData_error (c : Cache) (m : String) (data : JSObj) (uuid : String)
    (errs : List String) :
    (createInner c m data uuid (.ok ⟨none, errs⟩)).1 = .error "create returned no data" := rfl

-- -------------------------------
-- Claim theorems
-- -------------------------------

/-- C1 (counterexample): rollback exactness fails as stated.  In a cache
where the query `["M"]` exists with undefined data, a failing `create`
appends the optimistic record to `["M"]` without snapshotting it (the
`if (data)` guard skips absent values), and snapshots the absent item key
whose restore is a `setQueryData(key, undefined)` no-op; after rollback both
keys still hold the optimistic write instead of their pre-mutation (absent)
values. -/
theorem C1_rollback_exactness_counterexample :
    getQueryData exCacheAbsent [KeyTok.str "M"] = none ∧
    getQueryData exCacheAbsent (itemKey "M" "a") = none ∧
    (createRun exCacheAbsent "M" exRecA "u" (.error "boom")).1 = none ∧
    getQueryData ((createRun exCacheAbsent "M" exRecA "u" (.error "boom")).2)
      [KeyTok.str "M"] = some (.list [exRecA]) ∧
    getQueryData ((createRun exCacheAbsent "M" exRecA "u" (.error "boom")).2)
      (itemKey "M" "a") = some (.record exRecA) := by decide

/-- C1 (amended): for create, update, delete — and upsert when its
preliminary `get` is served by a consistent cached record — if the server
call fails, every key whose cache value immediately before the mutation was
present and non-null is restored to exactly that value by rollback; keys with
no present value before the mutation may retain the optimistic write
(`createList`/`deleteList` handle per-item failures without snapshot
rollback and are settled separately). -/
theorem C1_rollback_restores_present_nonnull_keys (c : Cache) (m : String)
    (k : QKey) (v : CacheVal) (hwf : c.wf) (hk : getQueryData c k = some v)
    (hv : v ≠ .vnull) :
    (∀ (data : JSObj) (uuid : String) (api : ApiRes),
      (match api with | .error _ => True | .ok r => r.data = none) →
      getQueryData (createRun c m data uuid api).2 k = some v) ∧
    (∀ (data : JSObj) (api : ApiRes),
      (match api with | .error _ => True | .ok r => r.data = none) →
      getQueryData (updateRun c m data api).2 k = some v) ∧
    (∀ (id : String) (api : ApiRes),
      (match api with | .error _ => True | .ok r => r.errors ≠ []) →
      getQueryData (deleteRun c m id api).2 k = some v) ∧
    (∀ (data : JSObj) (getApi : GetApi) (updateApi createApi : ApiRes)
       (id : String) (r : JSObj),
      objLookup data "id" = some (.atom (.astr id)) → id ≠ "" →
      getQueryData c (itemKey m id) = some (.record r) → hasId r id = true →
      (match updateApi with | .error _ => True | .ok res => res.data = none) →
      getQueryData (upsertRun c m data getApi updateApi createApi).2 k = some v) :=
  ⟨fun data uuid api hfail => createRun_fail_restores c m data uuid api hwf hfail k v hk hv,
   fun data api hfail => updateRun_fail_restores c m data api hwf hfail k v hk hv,
   fun id api hfail => deleteRun_fail_restores c m id api hwf hfail k v hk hv,
   fun data getApi uA cA id r h1 h2 h3 h4 hfail =>
     upsertRun_fail_restores c m data getApi uA cA hwf id r h1 h2 h3 h4 hfail k v hk hv⟩

/-- C1 (witness): the amended theorem applied to a concrete cache holding a
top-level list, for each of the four mutations. -/
theorem C1_rollback_restores_witness :
    exCacheListA.wf ∧
    getQueryData exCacheListA [KeyTok.str "M"] = some (.list [exRecA]) ∧
    getQueryData ((createRun exCacheListA "M" exRecB "u" (.error "x")).2)
      [KeyTok.str "M"] = some (.list [exRecA]) ∧
    getQueryData ((updateRun exCacheListA "M" exRecA (.ok ⟨none, []⟩)).2)
      [KeyTok.str "M"] = some (.list [exRecA]) ∧
    getQueryData ((deleteRun exCacheListA "M" "a" (.error "x")).2)
      [KeyTok.str "M"] = some (.list [exRecA]) ∧
    getQueryData ((upsertRun exCacheListA "M" exRecA (.error "g") (.error "x")
      (.error "y")).2) [KeyTok.str "M"] = some (.list [exRecA]) :=
  ⟨by decide, by decide,
   (C1_rollback_restores_present_nonnull_keys exCacheListA "M" [KeyTok.str "M"]
     (.list [exRecA]) (by decide) (by decide) (by decide)).1 exRecB "u" (.error "x") trivial,
   (C1_rollback_restores_present_nonnull_keys exCacheListA "M" [KeyTok.str "M"]
     (.list [exRecA]) (by decide) (by decide) (by decide)).2.1 exRecA (.ok ⟨none, []⟩) rfl,
   (C1_rollback_restores_present_nonnull_keys exCacheListA "M" [KeyTok.str "M"]
     (.list [exRecA]) (by decide) (by decide) (by decide)).2.2.1 "a" (.error "x") trivial,
   (C1_rollback_restores_present_nonnull_keys exCacheListA "M" [KeyTok.str "M"]
     (.list [exRecA]) (by decide) (by decide) (by decide)).2.2.2 exRecA (.error "g")
     (.error "x") (.error "y") "a" exRecA (by decide) (by decide) (by decide)
     (by decide) trivial⟩

/-- C2: the ID-consistency guard is missing on `create`'s success overwrite.
Creating `{id: "a"}` against a transport that answers with `{id: "b"}` stores
the server record under the item key addressed by `"a"` without any id
verification, so the key `["M", "item", "a"]` ends up holding a non-null
record whose `id` field is `"b"` — the invariant and the claimed
verify-and-skip behavior are both violated on this path (every other write
path carries the explicit mismatch guard). -/
theorem C2_create_success_overwrite_unchecked :
    (createRun (⟨[], []⟩ : Cache) "M" exRecA "u" (.ok ⟨some exRecB, []⟩)).1 = some exRecB ∧
    getQueryData ((createRun (⟨[], []⟩ : Cache) "M" exRecA "u"
      (.ok ⟨some exRecB, []⟩)).2) (itemKey "M" "a") = some (.record exRecB) ∧
    objLookup exRecB "id" ≠ some (.atom (.astr "a")) := by decide

/-- C3 (counterexample): on the `{data: null, errors: []}` response the
attempt inside `create` does raise an error after rolling back, but `create`'s
outer `catch` swallows it and the call resolves normally with `null` — no
error propagates to the caller, refuting the claim as stated. -/
theorem C3_empty_success_resolves_null_counterexample :
    (createInner exCacheListA "M" exRecB "u" (.ok ⟨none, []⟩)).1 =
      .error "create returned no data" ∧
    (createRun exCacheListA "M" exRecB "u" (.ok ⟨none, []⟩)).1 = none := by decide

/-- C3 (amended): a `create` whose transport response is
`{data: null, errors: []}` raises an error internally, rolls back from the
snapshot (restoring every present non-null pre-mutation value), and resolves
with `null` — the failure result of `create`'s signature — rather than
completing as a success returning the optimistic record; the error itself is
caught by `create`'s outer handler and does not reach the caller. -/
theorem C3_empty_success_rolls_back_and_returns_null (c : Cache) (m : String)
    (data : JSObj) (uuid : String) (hwf : c.wf) :
    (createRun c m data uuid (.ok ⟨none, []⟩)).1 = none ∧
    (createInner c m data uuid (.ok ⟨none, []⟩)).1 = .error "create returned no data" ∧
    (∀ k v, getQueryData c k = some v → v ≠ .vnull →
      getQueryData (createRun c m data uuid (.ok ⟨none, []⟩)).2 k = some v) :=
  ⟨createRun_emptyData_null c m data uuid [],
   createInner_emptyData_error c m data uuid [],
   fun k v hk hv =>
     createRun_fail_restores c m data uuid (.ok ⟨none, []⟩) hwf rfl k v hk hv⟩

/-- C3 (witness): the amended theorem at a concrete cache and create call. -/
theorem C3_empty_success_witness :
    exCacheListA.wf ∧
    (createRun exCacheListA "M" exRecB "u" (.ok ⟨none, []⟩)).1 = none ∧
    getQueryData ((createRun exCacheListA "M" exRecB "u" (.ok ⟨none, []⟩)).2)
      [KeyTok.str "M"] = some (.list [exRecA]) :=
  ⟨by decide,
   (C3_empty_success_rolls_back_and_returns_null exCacheListA "M" exRecB "u" (by decide)).1,
   (C3_empty_success_rolls_back_and_returns_null exCacheListA "M" exRecB "u" (by decide)).2.2
     [KeyTok.str "M"] (.list [exRecA]) (by decide) (by decide)⟩

/-- C4 (counterexample): two filter objects with the same key-value pairs
but different key orders — equal as maps (they are permutations of one
another) — produce different `list` and `customList` query keys, because the
keys embed `JSON.stringify` of the object in its own enumeration order. -/
theorem C4_key_order_counterexample :
    exFilterAB ≠ exFilterBA ∧ exFilterAB.Perm exFilterBA ∧
    listKeyOf "M" (some exFilterAB) ≠ listKeyOf "M" (some exFilterBA) ∧
    customKeyOf "M" "q" exFilterAB ≠ customKeyOf "M" "q" exFilterBA := by
  refine ⟨by decide, ?_, by decide, by decide⟩
  exact List.Perm.swap _ _ _

/-- C4 (amended): `list` and `customList` (non-relational arguments) build
their query keys from `JSON.stringify` of the filter/args object in its own
enumeration order; two objects construct identical keys exactly when their
serializations are identical, so key-value-equal objects whose keys are
enumerated in different orders can produce different query keys. -/
theorem C4_key_equality_iff_stringify (m qn : String) (f g : JSObj)
    (hf : f.find? (fun kv => strEndsWith kv.1 "Id") = none)
    (hg : g.find? (fun kv => strEndsWith kv.1 "Id") = none) :
    (listKeyOf m (some f) = listKeyOf m (some g) ↔
      jsonStringify f = jsonStringify g) ∧
    (customKeyOf m qn f = customKeyOf m qn g ↔
      jsonStringify f = jsonStringify g) := by
  constructor
  · simp [listKeyOf]
  · simp [customKeyOf, hf, hg]

/-- C4 (witness): the amended theorem at the two concrete permuted filters. -/
theorem C4_key_equality_witness :
    exFilterAB.find? (fun kv => strEndsWith kv.1 "Id") = none ∧
    (listKeyOf "M" (some exFilterAB) = listKeyOf "M" (some exFilterBA) ↔
      jsonStringify exFilterAB = jsonStringify exFilterBA) ∧
    (customKeyOf "M" "q" exFilterAB = customKeyOf "M" "q" exFilterBA ↔
      jsonStringify exFilterAB = jsonStringify exFilterBA) :=
  ⟨by decide,
   (C4_key_equality_iff_stringify "M" "q" exFilterAB exFilterBA (by decide) (by decide)).1,
   (C4_key_equality_iff_stringify "M" "q" exFilterAB exFilterBA (by decide) (by decide)).2⟩

/-- C5: `deleteList(["b"])` with "b" failing server-side partitions the ids
as claimed and restores the item key and the cached filtered list, but the
partial-rollback guard `queryKey.length > 1` skips the top-level `["M"]`
list key, so the failed record is NOT re-inserted there (the key is only
invalidated) — the claim says it must be re-inserted into every cached
related list including the top-level list key. -/
theorem C5_deleteList_partial_rollback_eval :
    (deleteListRun exCacheDel "M" ["b"] (fun _ => .error "x")).1 = ⟨[], ["b"]⟩ ∧
    getQueryData (deleteListRun exCacheDel "M" ["b"] (fun _ => .error "x")).2
      (itemKey "M" "b") = some (.record exRecB) ∧
    getQueryData (deleteListRun exCacheDel "M" ["b"] (fun _ => .error "x")).2
      [KeyTok.str "M", KeyTok.str "filter", KeyTok.str "F"] = some (.list [exRecB]) ∧
    getQueryData (deleteListRun exCacheDel "M" ["b"] (fun _ => .error "x")).2
      [KeyTok.str "M"] = some (.list []) := by decide

/-- C6: with a non-empty cached list, an emission of `(items = [], isSynced =
false)` leaves the cache completely unchanged (the no-flicker guard returns
before any write), and a subsequent `(items = [], isSynced = true)` emission
overwrites the cached list with the empty list. -/
theorem C6_no_flicker_on_empty_resync (c : Cache) (m : String) (qk : QKey)
    (xs : List JSObj) (hc : getQueryData c qk = some (.list xs)) (hne : xs ≠ []) :
    observeStep c m qk (some []) false = c ∧
    getQueryData (observeStep (observeStep c m qk (some []) false) m qk
      (some []) true) qk = some (.list []) := by
  have h1 := observeStep_empty_unsynced c m qk xs hc hne
  refine ⟨h1, ?_⟩
  rw [h1]
  exact observeStep_empty_synced c m qk xs hc hne

/-- C6 (witness): the theorem at a concrete populated cache. -/
theorem C6_no_flicker_witness :
    getQueryData exCacheObs [KeyTok.str "M"] = some (.list [exItemV1]) ∧
    observeStep exCacheObs "M" [KeyTok.str "M"] (some []) false = exCacheObs ∧
    getQueryData (observeStep (observeStep exCacheObs "M" [KeyTok.str "M"]
      (some []) false) "M" [KeyTok.str "M"] (some []) true) [KeyTok.str "M"] =
      some (.list []) :=
  ⟨by decide,
   (C6_no_flicker_on_empty_resync exCacheObs "M" [KeyTok.str "M"] [exItemV1]
     (by decide) (by decide)).1,
   (C6_no_flicker_on_empty_resync exCacheObs "M" [KeyTok.str "M"] [exItemV1]
     (by decide) (by decide)).2⟩

/-- C7: the skip-the-write decision does not use the full signature.
`signatureForModelItem` does include the version marker and the shallow
fingerprint (the full signatures differ below), but
`areItemArraysEquivalentById` destructures `sig.split("::")` into only its
first two components (id and `updatedAt`), discarding the rest — so an item
set differing only in `_version`, or only in a non-timestamp `status` field,
is treated as identical to the cache and the write is skipped, contradicting
the claim and the function's own comment. -/
theorem C7_signature_comparison_eval :
    signatureForModelItem exItemV1 ≠ signatureForModelItem exItemV2 ∧
    areItemArraysEquivalentById [exItemV1] [exItemV2] = true ∧
    observeStep exCacheObs "M" [KeyTok.str "M"] (some [some exItemV2]) true =
      exCacheObs ∧
    signatureForModelItem exItemStatus0 ≠ signatureForModelItem exItemStatus ∧
    areItemArraysEquivalentById [exItemStatus0] [exItemStatus] = true ∧
    observeStep exCacheObsStatus "M" [KeyTok.str "M"] (some [some exItemStatus])
      true = exCacheObsStatus := by decide

/-- C8: a fetched `list({filter})` call returns exactly the (null-filtered)
fetched items satisfying every filter clause under the spec semantics —
logical AND across clauses, `between:[a,b]` inclusive on both ends, and
eq/ne/gt/lt/contains with their standard meanings — for every well-formed
(single-operator) filter. -/
theorem C8_filter_predicate_semantics (c : Cache) (m : String) (f : JSObj)
    (raw : List (Option JSObj)) (th : Bool) (fb : ListApi)
    (hwf : ∀ kv ∈ f, wfClause kv.2 = true) :
    (listRun c m (some f) true th (.ok ⟨some raw, []⟩) fb).1 =
      .ok ((raw.filterMap id).filter (fun item => specFilterHolds f item)) := by
  show Except.ok (applyClientFilter (some f) (raw.filterMap id)) = _
  rw [applyClientFilter_spec f _ hwf]

/-- C8 (witness): the theorem at the claim's own example,
`{score: {between: [10, 20]}, status: {eq: "open"}}`. -/
theorem C8_filter_witness :
    (∀ kv ∈ exFilterC8, wfClause kv.2 = true) ∧
    (listRun (⟨[], []⟩ : Cache) "M" (some exFilterC8) true false
      (.ok ⟨some exItemsC8, []⟩) (.error "x")).1 =
      .ok ((exItemsC8.filterMap id).filter
        (fun item => specFilterHolds exFilterC8 item)) :=
  ⟨by decide,
   C8_filter_predicate_semantics (⟨[], []⟩ : Cache) "M" exFilterC8 exItemsC8
     false (.error "x") (by decide)⟩

/-- C9: on total failure of an unfiltered `list()` call, the error handler
rebuilds the invalidation key unconditionally in the filtered shape, giving
`["M", "filter", JSON.stringify(undefined)]` = `["M", "filter", undefined]`;
that key matches no cached query, so nothing is invalidated and in particular
the key the call resolved for the lookup — `["M"]` — is NOT invalidated,
contradicting the claim (the call does return `[]`, rethrows under
`throwOnError`, and the filtered case does invalidate its own key, as the
last conjunct shows). -/
theorem C9_list_failure_invalidation_eval :
    listErrKey "M" none = [KeyTok.str "M", KeyTok.str "filter", KeyTok.undef] ∧
    (listRun exCacheListA "M" none true false (.error "boom") (.error "x")).1 = .ok [] ∧
    (listRun exCacheListA "M" none true false (.error "boom") (.error "x")).2.invalidated = [] ∧
    isInvalidated (listRun exCacheListA "M" none true false (.error "boom")
      (.error "x")).2 [KeyTok.str "M"] = false ∧
    (listRun exCacheListA "M" none true true (.error "boom") (.error "x")).1 =
      .error "boom" ∧
    isInvalidated (listRun (⟨[(listKeyOf "M" (some exFilterAB), some (.list [exRecA]))],
      []⟩ : Cache) "M" (some exFilterAB) true false (.error "boom") (.error "x")).2
      (listKeyOf "M" (some exFilterAB)) = true := by decide

/-- C10: `list` and `customList` treat an empty cached array as a cache
miss.  Without `forceRefresh`, the cached value is returned (and the cache
left untouched) exactly when it is a non-empty array under a non-invalidated
key; when the cached list is empty the run is identical to a forced-refresh
run, i.e. it always proceeds to the server fetch. -/
theorem C10_empty_cached_list_is_miss (c : Cache) (m qn : String)
    (filter : Option JSObj) (args : JSObj) (th qe : Bool) (oa fa api : ListApi) :
    (∀ xs, getQueryData c (listKeyOf m filter) = some (.list xs) → 0 < xs.length →
      isInvalidated c (listKeyOf m filter) = false →
      listRun c m filter false th oa fa = (.ok xs, c)) ∧
    (getQueryData c (listKeyOf m filter) = some (.list []) →
      listRun c m filter false th oa fa = listRun c m filter true th oa fa) ∧
    (∀ xs, getQueryData c (customKeyOf m qn args) = some (.list xs) → 0 < xs.length →
      isInvalidated c (customKeyOf m qn args) = false →
      customListRun c m qn args false th qe api = (.ok xs, c)) ∧
    (getQueryData c (customKeyOf m qn args) = some (.list []) →
      customListRun c m qn args false th qe api =
        customListRun c m qn args true th qe api) :=
  ⟨fun xs h hne hinv => listRun_cacheHit c m filter th oa fa xs h hne hinv,
   fun h => listRun_emptyCache_fetches c m filter th oa fa h,
   fun xs h hne hinv => customListRun_cacheHit c m qn args th qe api xs h hne hinv,
   fun h => customListRun_emptyCache_fetches c m qn args th qe api h⟩

/-- C10 (witness): the theorem at concrete caches — a populated list served
from cache unchanged, and empty cached lists for which the run equals the
forced-refresh run. -/
theorem C10_empty_cache_witness :
    listRun exCacheListA "M" none false false (.error "b") (.error "x") =
      (.ok [exRecA], exCacheListA) ∧
    listRun (⟨[([KeyTok.str "M"], some (.list []))], []⟩ : Cache) "M" none false
      false (.ok ⟨some [some exRecB], []⟩) (.error "x") =
      listRun (⟨[([KeyTok.str "M"], some (.list []))], []⟩ : Cache) "M" none true
        false (.ok ⟨some [some exRecB], []⟩) (.error "x") ∧
    customListRun (⟨[(customKeyOf "M" "q" exFilterAB, some (.list [exRecA]))],
      []⟩ : Cache) "M" "q" exFilterAB false false true (.error "x") =
      (.ok [exRecA], (⟨[(customKeyOf "M" "q" exFilterAB, some (.list [exRecA]))],
        []⟩ : Cache)) ∧
    customListRun (⟨[(customKeyOf "M" "q" exFilterAB, some (.list []))],
      []⟩ : Cache) "M" "q" exFilterAB false false true (.ok ⟨some [some exRecB], []⟩) =
      customListRun (⟨[(customKeyOf "M" "q" exFilterAB, some (.list []))],
        []⟩ : Cache) "M" "q" exFilterAB true false true (.ok ⟨some [some exRecB], []⟩) :=
  ⟨(C10_empty_cached_list_is_miss exCacheListA "M" "q" none exFilterAB false false
      (.error "b") (.error "x") (.error "x")).1 [exRecA] (by decide) (by decide) (by decide),
   (C10_empty_cached_list_is_miss (⟨[([KeyTok.str "M"], some (.list []))], []⟩ : Cache)
      "M" "q" none exFilterAB false false (.ok ⟨some [some exRecB], []⟩) (.error "x")
      (.error "x")).2.1 (by decide),
   (C10_empty_cached_list_is_miss (⟨[(customKeyOf "M" "q" exFilterAB,
      some (.list [exRecA]))], []⟩ : Cache) "M" "q" none exFilterAB false true
      (.error "x") (.error "x") (.error "x")).2.2.1 [exRecA] (by decide) (by decide)
      (by decide),
   (C10_empty_cached_list_is_miss (⟨[(customKeyOf "M" "q" exFilterAB,
      some (.list []))], []⟩ : Cache) "M" "q" none exFilterAB false true
      (.ok ⟨some [some exRecB], []⟩) (.error "x")
      (.ok ⟨some [some exRecB], []⟩)).2.2.2 (by decide)⟩
